import Mathlib

/-!
Verification development for the `eth-tx-crawler` repository.

The definitions below are a shallow embedding of `app/main.py` and
`app/etherscan.py`: Python integers become `Int` (block cursors) or `Nat`
(counts, page numbers, window sizes), Python dicts keyed by transaction hash
become insertion-ordered association lists, the upstream Etherscan API becomes
an arbitrary total response function, and the mutable `stop_requested` flag
becomes an arbitrary boolean oracle indexed by the point in the trace where the
code reads it.  Loops are embedded as fuel-indexed recursive functions that
return `none` on fuel exhaustion; termination theorems exhibit explicit
sufficient fuel.
-/

set_option maxRecDepth 4000

namespace EthTxCrawler

/-- Module-level constant of `app/main.py`: Etherscan's ~10,000 records-per-query cap. -/
def MAX_RECORDS_PER_QUERY : Nat := 10000

/-- Module-level constant of `app/main.py`: minimum window size in blocks. -/
def MIN_WINDOW_BLOCKS : Nat := 1

/-- Module-level constant of `app/main.py`: maximum window size in blocks. -/
def MAX_WINDOW_BLOCKS : Nat := 200000

/-- Module-level constant of `app/main.py`: safety limit on segment count. -/
def SAFETY_MAX_SEGMENTS : Nat := 5000

/-- Module-level constant of `app/main.py`: FIFO bound of the results cache. -/
def CACHE_SIZE_LIMIT : Nat := 10

/-- Module-level constant of `app/main.py`: FIFO bound of the jobs registry. -/
def JOBS_SIZE_LIMIT : Nat := 20

/-- One transaction record as returned by the upstream API.  The code uses only
`hash` (dedup key; Python skips records whose hash is missing or falsy, which we
model as the empty string), `blockNumber` and `timeStamp` (sort key); both are
numeric strings in the wire format and are consumed through `int(...)`, so we
embed them as naturals. -/
structure Tx where
  hash : String
  blockNumber : Nat
  timeStamp : Nat
deriving Repr, DecidableEq

/-- Result tuple of `fetch_txlist_window` in `app/main.py`:
`(txs_list, pages_used, cap_hit, truncated, paused_hit, cap_unresolvable)`. -/
structure FetchResult where
  txs : List Tx
  pages_used : Nat
  cap_hit : Bool
  truncated : Bool
  paused_hit : Bool
  cap_unresolvable : Bool
deriving Repr, DecidableEq

/-- Computes `math.ceil(MAX_RECORDS_PER_QUERY / page_size)` for a positive integer
`page_size` (`max_pages_for_offset` in `fetch_txlist_window`). -/
def max_pages_for_offset (page_size : Nat) : Nat :=
  (MAX_RECORDS_PER_QUERY + page_size - 1) / page_size

/-- The `while True` loop of `fetch_txlist_window` (`app/main.py`).
`respond page` is the chunk returned by `client.txlist_page` for that page;
`stopB`/`stopA` are the values the `should_stop` callback returns when read
before/after fetching a given page.  State: `collected` list and
`current_page`.  Fuel exhaustion yields `none`. -/
def fetchGo (respond : Nat → List Tx) (stopB stopA : Nat → Bool)
    (start_blk end_blk : Int) (page_size : Nat) (pages_total : Nat)
    (max_pages_int : Option Nat) (min_window_blocks : Nat) :
    Nat → List Tx → Nat → Option FetchResult
  | 0, _, _ => none
  | fuel+1, collected, current_page =>
    if stopB current_page then
      some ⟨collected, current_page, false, false, true, false⟩
    else if match max_pages_int with
            | some m => decide (m < pages_total + current_page)
            | none => false then
      some ⟨collected, current_page, false, true, false, false⟩
    else
      let chunk := respond current_page
      let collected' := collected ++ chunk
      if stopA current_page then
        some ⟨collected', current_page, false, false, true, false⟩
      else if chunk.length < page_size then
        some ⟨collected', current_page, false, false, false, false⟩
      else
        let next_page := current_page + 1
        if (max_pages_for_offset page_size < next_page ∧ chunk.length = page_size)
           ∨ MAX_RECORDS_PER_QUERY ≤ collected'.length then
          some ⟨collected', next_page, true, false, false,
                decide (end_blk - start_blk + 1 ≤ (min_window_blocks : Int))⟩
        else
          fetchGo respond stopB stopA start_blk end_blk page_size pages_total
            max_pages_int min_window_blocks fuel collected' next_page

/-- Fuel that is always sufficient for `fetchGo` when `1 ≤ page_size`
(each iteration that recurses adds at least one record and recursing requires
fewer than `MAX_RECORDS_PER_QUERY` records collected). -/
def FETCH_FUEL : Nat := MAX_RECORDS_PER_QUERY + 1

/-- Function `fetch_txlist_window` of `app/main.py`: drain all pages of the block window
`[start_blk, end_blk]`, starting at page 1 with nothing collected. -/
def fetch_txlist_window (respond : Nat → List Tx) (stopB stopA : Nat → Bool)
    (start_blk end_blk : Int) (page_size : Nat) (pages_total : Nat)
    (max_pages_int : Option Nat) (min_window_blocks : Nat) : Option FetchResult :=
  fetchGo respond stopB stopA start_blk end_blk page_size pages_total
    max_pages_int min_window_blocks FETCH_FUEL [] 1

/-- Python dict assignment `m[k] = v` on an insertion-ordered dict modeled as an
association list: an existing key keeps its position and gets the new value,
a new key is appended at the end. -/
def pyDictSet {α : Type} (m : List (String × α)) (k : String) (v : α) :
    List (String × α) :=
  if m.any (fun p => p.1 == k) then
    m.map (fun p => if p.1 == k then (k, v) else p)
  else m ++ [(k, v)]

/-- Python `del m[k]` guarded by `if k in m` (removes the entry for `k`). -/
def pyDictDel {α : Type} (m : List (String × α)) (k : String) :
    List (String × α) :=
  m.filter (fun p => ¬ p.1 == k)

/-- The dedup merge of `run_job` (`app/main.py` lines 755-760): for each fetched
record, if its hash is truthy (non-empty here; Python also skips `None`), store
it in the dedup dict keyed by hash, last write wins. -/
def addTxs (m : List (String × Tx)) (txs : List Tx) : List (String × Tx) :=
  txs.foldl (fun acc tx => if tx.hash = "" then acc else pyDictSet acc tx.hash tx) m

/-- The sort key comparison used by `sorted(..., key=lambda x: (int(x["blockNumber"]),
int(x["timeStamp"])))`: lexicographic on the pair. -/
def txKeyLe (a b : Tx) : Bool :=
  decide (a.blockNumber < b.blockNumber ∨
    (a.blockNumber = b.blockNumber ∧ a.timeStamp ≤ b.timeStamp))

/-- Python `sorted(values, key=lambda x: (blockNumber, timeStamp))`: a stable
merge sort by the lexicographic key. -/
def pySortByBlockTs (l : List Tx) : List Tx := l.mergeSort txKeyLe

/-- Segment metadata appended by `run_job` after a fully drained window
(`end` is a Lean keyword, so the `"end"` entry is called `endB`). -/
structure Segment where
  start : Int
  endB : Int
  pages : Nat
  tx_count : Nat
  cap_hit : Bool
deriving Repr, DecidableEq

/-- The loop state of `run_job`'s segmented crawl: the cursor, window size,
counters, the dedup accumulator (`seen_hashes`), segment history, saved
coverage end, the (never written) token accumulator, and the high-activity
flag with its reason string. -/
structure RunState where
  seg_start : Int
  window_blocks : Nat
  pages_total : Nat
  segment_num : Nat
  seen : List (String × Tx)
  segments : List Segment
  coverage_end : Int
  token_seen : List (String × Tx)
  high_activity : Bool
  high_activity_reason : String
deriving Repr, DecidableEq

/-- The state save performed on both pause paths of `run_job`: if any segment
completed, `coverage_end` becomes the end of the last completed segment. -/
def pauseSave (st : RunState) : RunState :=
  match st.segments.getLast? with
  | some s => { st with coverage_end := s.endB }
  | none => st

/-- High-activity check in the cap-hit branch of `run_job` (lines 740-744),
applied after the window has been halved. -/
def capHighActivity (st : RunState) : RunState :=
  if st.window_blocks ≤ 1000 ∧ st.high_activity = false then
    { st with
      high_activity := true,
      high_activity_reason := "Window reduced to " ++ toString st.window_blocks ++
        " blocks due to Etherscan cap" }
  else st

/-- High-activity checks after a completed segment (`run_job` lines 804-814):
the segment-count check fires first; the window check only if the flag is
still unset. -/
def segHighActivity (st : RunState) : RunState :=
  if 2000 ≤ st.segment_num ∧ st.high_activity = false then
    { st with
      high_activity := true,
      high_activity_reason := "Segments exceeded 2000 (currently " ++
        toString st.segment_num ++ ")" }
  else if st.window_blocks ≤ 1000 ∧ st.high_activity = false then
    { st with
      high_activity := true,
      high_activity_reason := "Window reduced to " ++ toString st.window_blocks ++
        " blocks due to Etherscan cap" }
  else st

/-- How one execution of `run_job`'s `while seg_start <= latest_block` loop
ends. -/
inductive RunExit where
  | completed
  | pausedTop
  | pausedFetch
  | safety
  | budget
  | capUnres
  | capMin
deriving Repr, DecidableEq

/-- The `while seg_start <= latest_block` loop of `run_job` (`app/main.py`
lines 651-823).  `respond start end page` is the page the upstream returns for
a `txlist` query on the window `[start, end]`; `stopTop`, `stopB`, `stopA` are
the values read from the job's mutable `stop_requested` flag at the loop head
and inside the window fetch, indexed by the remaining fuel (unique per
iteration) and the page.  Returns `none` on fuel exhaustion. -/
def runGo (respond : Int → Int → Nat → List Tx) (stopTop : Nat → Bool)
    (stopB stopA : Nat → Nat → Bool) (latest_block : Int) (page_size : Nat)
    (max_pages_int : Option Nat) : Nat → RunState → Option (RunExit × RunState)
  | 0, _ => none
  | fuel+1, st =>
    if latest_block < st.seg_start then some (.completed, st)
    else if stopTop (fuel+1) then some (.pausedTop, pauseSave st)
    else
      let seg_end := min (st.seg_start + (st.window_blocks : Int) - 1) latest_block
      let segment_num := st.segment_num + 1
      if SAFETY_MAX_SEGMENTS < segment_num then
        some (.safety, { st with segment_num := segment_num })
      else
        match fetch_txlist_window (respond st.seg_start seg_end) (stopB (fuel+1))
            (stopA (fuel+1)) st.seg_start seg_end page_size st.pages_total
            max_pages_int MIN_WINDOW_BLOCKS with
        | none => none
        | some fr =>
          let pages_total := st.pages_total + fr.pages_used
          if fr.paused_hit then
            some (.pausedFetch,
              pauseSave { st with pages_total := pages_total, segment_num := segment_num })
          else if fr.truncated then
            some (.budget, { st with pages_total := pages_total, segment_num := segment_num })
          else if fr.cap_hit then
            if fr.cap_unresolvable then
              some (.capUnres, { st with pages_total := pages_total, segment_num := segment_num })
            else if MIN_WINDOW_BLOCKS < st.window_blocks then
              runGo respond stopTop stopB stopA latest_block page_size max_pages_int fuel
                (capHighActivity { st with
                  pages_total := pages_total,
                  segment_num := segment_num - 1,
                  window_blocks := max (st.window_blocks / 2) MIN_WINDOW_BLOCKS })
            else
              some (.capMin, { st with pages_total := pages_total, segment_num := segment_num })
          else
            let st1 : RunState :=
              { st with
                seen := addTxs st.seen fr.txs,
                segments := st.segments ++
                  [⟨st.seg_start, seg_end, fr.pages_used, fr.txs.length, false⟩],
                pages_total := pages_total,
                segment_num := segment_num,
                coverage_end := seg_end }
            let st2 := segHighActivity st1
            runGo respond stopTop stopB stopA latest_block page_size max_pages_int fuel
              { st2 with
                seg_start := seg_end + 1,
                window_blocks := if st2.window_blocks < MAX_WINDOW_BLOCKS
                  then min (st2.window_blocks * 2) MAX_WINDOW_BLOCKS
                  else st2.window_blocks }

/-- Error message of the safety-abort path of `run_job`. -/
def safety_error_msg : String :=
  "Safety limit reached: " ++ toString SAFETY_MAX_SEGMENTS ++
    " segments. Address may be too active for this range."

/-- Error message of the cap-unresolvable path of `run_job`. -/
def cap_unresolvable_error_msg (window_blocks : Nat) : String :=
  "Even a window of " ++ toString window_blocks ++
    " block(s) exceeds Etherscan cap (~10,000 records). Cannot guarantee ALL results via Etherscan for this address in this range. Consider using a smaller start_block or switching to a node-based approach."

/-- Error message of the defensive cap-at-minimum-window branch of `run_job`. -/
def cap_min_error_msg : String :=
  "Cap hit at minimum window size (" ++ toString MIN_WINDOW_BLOCKS ++
    " blocks). Cannot proceed."

/-- Error message stored when the global `max_pages` budget stops the crawl. -/
def max_pages_error_msg : String := "Stopped due to max_pages limit"

/-- One entry of `RESULTS_CACHE`: the published result of a finished crawl. -/
structure ResultEntry where
  eth_txs : List Tx
  address : String
  start_block : Int
  latest_block : Int
  eth_total : Nat
  coverage_start : Int
  coverage_end : Int
  segments : List Segment
  include_tokens : Bool
  token_txs : Option (List Tx)
deriving Repr, DecidableEq

/-- The observable final state of a job after `run_job` returns: lifecycle
flags, the `error` field, the published result (if any), and the final loop
state. -/
structure FinalJob where
  running : Bool
  done : Bool
  paused : Bool
  error : Option String
  published : Option ResultEntry
  state : RunState
deriving Repr, DecidableEq

/-- The result-publication block of `run_job` (lines 826-867): sort the dedup
accumulator by `(blockNumber, timeStamp)`, compute coverage from the segment
list, and attach token transfers only when `include_tokens` is set and the
token accumulator is non-empty. -/
def publishEntry (address : String) (start_block latest_block : Int)
    (include_tokens : Bool) (st : RunState) : ResultEntry :=
  let all_txs_raw := pySortByBlockTs (st.seen.map Prod.snd)
  let coverage_start := match st.segments.head? with
    | some s => s.start
    | none => start_block
  let coverage_end := match st.segments.getLast? with
    | some s => s.endB
    | none => latest_block
  let token_txs := if include_tokens ∧ st.token_seen ≠ [] then
      some (pySortByBlockTs (st.token_seen.map Prod.snd))
    else none
  ⟨all_txs_raw, address, start_block, latest_block, all_txs_raw.length,
   coverage_start, coverage_end, st.segments, include_tokens, token_txs⟩

/-- The post-loop handling of each `run_job` exit: pauses leave the job paused
with no error; safety/cap exits mark it done with the corresponding error and
publish nothing; the budget stop breaks out of the loop and therefore falls
through to the publication block with its error message kept; natural
completion publishes with no error. -/
def runJobFinish (address : String) (start_block latest_block : Int)
    (include_tokens : Bool) : RunExit × RunState → FinalJob
  | (.pausedTop, st) => ⟨false, false, true, none, none, st⟩
  | (.pausedFetch, st) => ⟨false, false, true, none, none, st⟩
  | (.safety, st) => ⟨false, true, false, some safety_error_msg, none, st⟩
  | (.capUnres, st) =>
    ⟨false, true, false, some (cap_unresolvable_error_msg st.window_blocks), none, st⟩
  | (.capMin, st) => ⟨false, true, false, some cap_min_error_msg, none, st⟩
  | (.budget, st) =>
    let entry := publishEntry address start_block latest_block include_tokens st
    ⟨false, true, false, some max_pages_error_msg, some entry,
      { st with coverage_end := entry.coverage_end }⟩
  | (.completed, st) =>
    let entry := publishEntry address start_block latest_block include_tokens st
    ⟨false, true, false, none, some entry,
      { st with coverage_end := entry.coverage_end }⟩

/-- Termination measure for the crawl loop: blocks left to cover, weighted by
the window-size range, plus the current window size. -/
def runMeasure (latest_block : Int) (st : RunState) : Nat :=
  (latest_block + 1 - st.seg_start).toNat * (MAX_WINDOW_BLOCKS + 1) + st.window_blocks

/-- Sufficient fuel for `runGo` (proved in `run_job_terminates`). -/
def runFuel (latest_block : Int) (st : RunState) : Nat := runMeasure latest_block st + 1

/-- Function `run_job` of `app/main.py`: run the segmented crawl loop from the given
state and apply the exit handling. -/
def run_job (respond : Int → Int → Nat → List Tx) (stopTop : Nat → Bool)
    (stopB stopA : Nat → Nat → Bool) (address : String)
    (start_block latest_block : Int) (page_size : Nat)
    (max_pages_int : Option Nat) (include_tokens : Bool) (st : RunState) :
    Option FinalJob :=
  (runGo respond stopTop stopB stopA latest_block page_size max_pages_int
    (runFuel latest_block st) st).map
    (runJobFinish address start_block latest_block include_tokens)

/-- The loop state a freshly created job starts from (`crawl_all_start`):
cursor at `start_block`, window at `MAX_WINDOW_BLOCKS`, empty accumulators,
`coverage_end = start_block - 1`. -/
def initialRunState (start_block : Int) : RunState :=
  ⟨start_block, MAX_WINDOW_BLOCKS, 0, 0, [], [], start_block - 1, [], false, ""⟩

/-- The job-record fields read and written by `crawl_all_start` and
`crawl_resume`. -/
structure JobRec where
  address : String
  start_block : Int
  include_tokens : Bool
  page_size : Nat
  max_pages_int : Option Nat
  seg_start : Int
  window_blocks : Nat
  coverage_end : Option Int
  running : Bool
  done : Bool
  paused : Bool
  stop_requested : Bool
  error : Option String
deriving Repr, DecidableEq

/-- The clamp `page_size = max(50, min(500, page_size))` of `crawl_all_start` (line 244)
and `crawl` (line 1130). -/
def pageSizeClamp (page_size : Int) : Int := max 50 (min 500 page_size)

/-- The job record created by `crawl_all_start` (lines 242-285), after the
page-size clamp. -/
def createJob (address : String) (start_block : Int) (include_tokens : Bool)
    (max_pages_int : Option Nat) (page_size : Int) : JobRec :=
  ⟨address, start_block, include_tokens, (pageSizeClamp page_size).toNat,
   max_pages_int, start_block, MAX_WINDOW_BLOCKS, some (start_block - 1),
   false, false, false, false, none⟩

/-- Responses of the `/crawl_resume` endpoint (found-job case): an error JSON
with HTTP 400, or a successful resume. -/
inductive ResumeResp where
  | badRequest (msg : String)
  | resumed
deriving Repr, DecidableEq

/-- Endpoint `crawl_resume` of `app/main.py` (lines 391-423), for a job present in the
store: reject unless the job is paused, not running and not done; otherwise
clear the pause/stop flags, mark it running, and set the cursor to
`coverage_end + 1` when a coverage end is recorded (a new `run_job` thread is
then started on the updated record, reading its saved `window_blocks`). -/
def crawl_resume (job : JobRec) : ResumeResp × JobRec :=
  if job.paused = false then (.badRequest "Job is not paused", job)
  else if job.running then (.badRequest "Job is already running", job)
  else if job.done then (.badRequest "Job is already done", job)
  else
    let j1 : JobRec := { job with
      paused := false, stop_requested := false,
      running := true, error := none }
    let j2 : JobRec := match job.coverage_end with
      | some c => { j1 with seg_start := c + 1 }
      | none => j1
    (.resumed, j2)

/-- The module-level registries of `app/main.py`: the FIFO id lists and the
dicts they manage. -/
structure Stores where
  JOB_IDS : List String
  JOBS : List (String × JobRec)
  RESULT_IDS : List String
  RESULTS_CACHE : List (String × ResultEntry)
deriving Repr, DecidableEq

/-- The registry update of `crawl_all_start` (lines 249-257): append the new
job id, evict the oldest job when over `JOBS_SIZE_LIMIT`, then store the job.
The results cache is not touched. -/
def crawl_all_start_store (s : Stores) (job_id : String) (job : JobRec) : Stores :=
  let ids := s.JOB_IDS ++ [job_id]
  if JOBS_SIZE_LIMIT < ids.length then
    match ids with
    | [] => s
    | oldest :: rest =>
      { s with
        JOB_IDS := rest,
        JOBS := pyDictSet (pyDictDel s.JOBS oldest) job_id job }
  else
    { s with JOB_IDS := ids, JOBS := pyDictSet s.JOBS job_id job }

/-- The result-cache update of `run_job` (lines 856-874): store the entry,
append its id, and evict the oldest cached result when over
`CACHE_SIZE_LIMIT`.  The job registry is not touched. -/
def publish_result_store (s : Stores) (result_id : String) (entry : ResultEntry) :
    Stores :=
  let cache := pyDictSet s.RESULTS_CACHE result_id entry
  let ids := s.RESULT_IDS ++ [result_id]
  if CACHE_SIZE_LIMIT < ids.length then
    match ids with
    | [] => { s with RESULTS_CACHE := cache, RESULT_IDS := ids }
    | oldest :: rest =>
      { s with RESULT_IDS := rest, RESULTS_CACHE := pyDictDel cache oldest }
  else { s with RESULTS_CACHE := cache, RESULT_IDS := ids }

/-- Boolean test that the character list `sub` starts the character list `s`. -/
def strStartsWith : List Char → List Char → Bool
  | [], _ => true
  | _ :: _, [] => false
  | a :: as, b :: bs => a == b && strStartsWith as bs

/-- Python's `sub in s` substring test. -/
def strContainsSub (s sub : String) : Bool :=
  (List.range (s.data.length + 1)).any (fun i => strStartsWith sub.data (s.data.drop i))

/-- What one HTTP attempt of `EtherscanClient._get` can observe, abstracting
the network: a timeout, a connection error, an HTTP error status (from
`raise_for_status`), an HTTP 200 whose body is not JSON, a parsed JSON body
(its `status`/`message` fields, its `result` field when it is a string, and
the raw text), or any other exception. -/
inductive Resp where
  | timeout (e : String)
  | connError (e : String)
  | httpError (code : Nat) (text : String)
  | badJson (text : String)
  | jsonOk (status message : String) (resultStr : Option String) (text : String)
  | otherExc (e : String)
deriving Repr, DecidableEq

/-- Constant `max_attempts = 3` in `EtherscanClient._get`. -/
def max_attempts : Nat := 3

/-- Constant `backoff_times = [1, 2, 4]` in `EtherscanClient._get`. -/
def backoff_times : List Nat := [1, 2, 4]

/-- Python's `str.lower()`, character by character (ASCII-faithful). -/
def pyLower (s : String) : String := String.mk (s.data.map Char.toLower)

/-- The rate-limit detection of `_get` (lines 57-64): requires `status == "0"`
plus rate-limit vocabulary in the lowered message, or in the lowered result
when the result is a string. -/
def is_rate_limit_resp (status message : String) (resultStr : Option String) :
    Bool :=
  status == "0" && (
    strContainsSub (pyLower message) "rate limit" ||
    strContainsSub (pyLower message) "max rate limit reached" ||
    strContainsSub (pyLower message) "busy" ||
    (match resultStr with
     | some r => strContainsSub (pyLower r) "rate limit" || strContainsSub (pyLower r) "busy"
     | none => false))

/-- What `_get` can do: return the parsed JSON (identified by its observable
fields), raise a `RuntimeError` with a message, or re-raise a non-429 HTTP
error. -/
inductive GetOutcome where
  | value (status message : String) (resultStr : Option String) (text : String)
  | fatal (msg : String)
  | httpRaise (code : Nat) (text : String)
deriving Repr, DecidableEq

/-- An execution trace of `_get`: the outcome, the backoff delays slept (in
order), and the number of attempts made. -/
structure GetTrace where
  outcome : GetOutcome
  delays : List Nat
  attempts : Nat
deriving Repr, DecidableEq

/-- The `for attempt in range(max_attempts)` loop of `EtherscanClient._get`
(`app/etherscan.py` lines 32-137).  `resp attempt` is what the attempt
observes; the first argument counts the attempts remaining (3 at entry).  The
fuel-exhausted case is the unreachable post-loop raise. -/
def etherscanGetGo (resp : Nat → Resp) : Nat → Nat → List Nat → GetTrace
  | 0, attempt, delays =>
    ⟨.fatal ("Etherscan API request failed after " ++ toString max_attempts ++
      " attempts."), delays, attempt⟩
  | remaining+1, attempt, delays =>
    let backoff := backoff_times.getD attempt 0
    match resp attempt with
    | .timeout e =>
      if attempt < max_attempts - 1 then
        etherscanGetGo resp remaining (attempt+1) (delays ++ [backoff])
      else
        ⟨.fatal ("Etherscan API request timed out after " ++ toString max_attempts ++
          " attempts. Last error: " ++ e), delays, attempt + 1⟩
    | .connError e =>
      if attempt < max_attempts - 1 then
        etherscanGetGo resp remaining (attempt+1) (delays ++ [backoff])
      else
        ⟨.fatal ("Etherscan API connection failed after " ++ toString max_attempts ++
          " attempts. Last error: " ++ e), delays, attempt + 1⟩
    | .httpError code text =>
      if code = 429 then
        if attempt < max_attempts - 1 then
          etherscanGetGo resp remaining (attempt+1) (delays ++ [backoff])
        else
          ⟨.fatal ("Etherscan API returned HTTP 429 after " ++ toString max_attempts ++
            " attempts. Last response: " ++ text.take 200), delays, attempt + 1⟩
      else ⟨.httpRaise code text, delays, attempt + 1⟩
    | .badJson text =>
      if attempt < max_attempts - 1 then
        etherscanGetGo resp remaining (attempt+1) (delays ++ [backoff])
      else
        ⟨.fatal ("Etherscan API returned invalid JSON after " ++ toString max_attempts ++
          " attempts. Last response: " ++ text.take 200), delays, attempt + 1⟩
    | .jsonOk status message resultStr text =>
      if is_rate_limit_resp status message resultStr ∧ attempt < max_attempts - 1 then
        etherscanGetGo resp remaining (attempt+1) (delays ++ [backoff])
      else if (status == "0" && !is_rate_limit_resp status message resultStr) ∧
          attempt < max_attempts - 1 then
        etherscanGetGo resp remaining (attempt+1) (delays ++ [backoff])
      else ⟨.value status message resultStr text, delays, attempt + 1⟩
    | .otherExc e =>
      if attempt < max_attempts - 1 then
        etherscanGetGo resp remaining (attempt+1) (delays ++ [backoff])
      else
        ⟨.fatal ("Etherscan API request failed after " ++ toString max_attempts ++
          " attempts. Last error: " ++ e), delays, attempt + 1⟩

/-- Method `EtherscanClient._get` as a whole: run the attempt loop from attempt 0. -/
def etherscan_get (resp : Nat → Resp) : GetTrace :=
  etherscanGetGo resp max_attempts 0 []

/-- Whether a single attempt's observation triggers `_get`'s retry handling
(as opposed to returning or raising immediately). -/
def triggersRetry : Resp → Bool
  | .timeout _ => true
  | .connError _ => true
  | .httpError code _ => code == 429
  | .badJson _ => true
  | .jsonOk status _ _ _ => status == "0"
  | .otherExc _ => true

/-- Well-formedness of the dedup accumulator: keys are distinct, and every
entry is stored under its record's (non-empty) hash. -/
def SeenWF (m : List (String × Tx)) : Prop :=
  (m.map Prod.fst).Nodup ∧ ∀ p ∈ m, p.2.hash = p.1 ∧ p.1 ≠ ""

/-- C1.  For every point of every window drain (any reachable loop state of
`fetch_txlist_window`), if the loop body runs without a stop request and
without exceeding the global page budget, then: a page with fewer records than
`page_size` ends the drain with neither cap flag set; otherwise, after
advancing past the full page, the drain stops with `cap_hit` exactly when the
new page index exceeds `ceil(MAX_RECORDS_PER_QUERY / page_size)` with the
just-fetched page full, or the cumulative record count has reached
`MAX_RECORDS_PER_QUERY`, and in that case `cap_unresolvable` is set exactly
when the window spans at most `min_window_blocks` blocks; when the cap
condition fails the loop simply continues with the next page. -/
theorem fetch_txlist_window_cap_flags
    (respond : Nat → List Tx) (stopB stopA : Nat → Bool)
    (start_blk end_blk : Int) (page_size pages_total : Nat)
    (max_pages_int : Option Nat) (min_window_blocks : Nat)
    (fuel current_page : Nat) (collected : List Tx)
    (hB : stopB current_page = false)
    (hbudget : (match max_pages_int with
                | some m => decide (m < pages_total + current_page)
                | none => false) = false)
    (hA : stopA current_page = false) :
    ((respond current_page).length < page_size →
      fetchGo respond stopB stopA start_blk end_blk page_size pages_total
          max_pages_int min_window_blocks (fuel+1) collected current_page =
        some ⟨collected ++ respond current_page, current_page,
              false, false, false, false⟩)
    ∧ (¬ (respond current_page).length < page_size →
      ((max_pages_for_offset page_size < current_page + 1 ∧
          (respond current_page).length = page_size)
        ∨ MAX_RECORDS_PER_QUERY ≤ (collected ++ respond current_page).length →
        fetchGo respond stopB stopA start_blk end_blk page_size pages_total
            max_pages_int min_window_blocks (fuel+1) collected current_page =
          some ⟨collected ++ respond current_page, current_page + 1,
                true, false, false,
                decide (end_blk - start_blk + 1 ≤ (min_window_blocks : Int))⟩)
      ∧ (¬ ((max_pages_for_offset page_size < current_page + 1 ∧
          (respond current_page).length = page_size)
        ∨ MAX_RECORDS_PER_QUERY ≤ (collected ++ respond current_page).length) →
        fetchGo respond stopB stopA start_blk end_blk page_size pages_total
            max_pages_int min_window_blocks (fuel+1) collected current_page =
          fetchGo respond stopB stopA start_blk end_blk page_size pages_total
            max_pages_int min_window_blocks fuel
            (collected ++ respond current_page) (current_page + 1))) := by
  refine ⟨fun hshort => ?_, fun hfull => ⟨fun hcap => ?_, fun hnocap => ?_⟩⟩
  · simp only [fetchGo, hB, hbudget, Bool.false_eq_true, if_false, hA, if_pos hshort]
  · simp only [fetchGo, hB, hbudget, Bool.false_eq_true, if_false, hA, if_neg hfull,
      if_pos hcap]
  · simp only [fetchGo, hB, hbudget, Bool.false_eq_true, if_false, hA, if_neg hfull,
      if_neg hnocap]

/-- Concrete instantiation of the C1 theorem: page size 50, a short page of one
record at page 1 ends the drain with no flags. -/
theorem fetch_txlist_window_cap_flags_witness :
    ((fun _ : Nat => false) 1 = false)
    ∧ ((match (none : Option Nat) with
        | some m => decide (m < 0 + 1)
        | none => false) = false)
    ∧ (((fun _ : Nat => [(⟨"0xa", 5, 7⟩ : Tx)]) 1).length < 50 →
      fetchGo (fun _ => [(⟨"0xa", 5, 7⟩ : Tx)]) (fun _ => false) (fun _ => false)
          0 99 50 0 none 1 (3+1) [] 1 =
        some ⟨[] ++ (fun _ : Nat => [(⟨"0xa", 5, 7⟩ : Tx)]) 1, 1,
              false, false, false, false⟩) := by
  refine ⟨rfl, rfl, ?_⟩
  exact (fetch_txlist_window_cap_flags (fun _ => [(⟨"0xa", 5, 7⟩ : Tx)])
    (fun _ => false) (fun _ => false) 0 99 50 0 none 1 3 1 [] rfl rfl rfl).1

/-- With a positive page size, the window-drain loop always terminates:
each iteration that continues has collected at least one more record while
remaining below the cap, so `FETCH_FUEL` iterations never run out. -/
theorem fetchGo_isSome (respond : Nat → List Tx) (stopB stopA : Nat → Bool)
    (start_blk end_blk : Int) (page_size pages_total : Nat)
    (max_pages_int : Option Nat) (min_window_blocks : Nat)
    (hps : 1 ≤ page_size) :
    ∀ (fuel : Nat) (collected : List Tx) (current_page : Nat),
      MAX_RECORDS_PER_QUERY + 1 ≤ fuel + collected.length →
      collected.length < MAX_RECORDS_PER_QUERY →
      (fetchGo respond stopB stopA start_blk end_blk page_size pages_total
        max_pages_int min_window_blocks fuel collected current_page).isSome := by
  intro fuel
  induction fuel with
  | zero =>
    intro collected page h1 h2
    exact absurd h1 (by omega)
  | succ n ih =>
    intro collected page h1 h2
    simp only [fetchGo]
    split
    · rfl
    · split
      · rfl
      · split
        · rfl
        · split
          · rfl
          · split
            · rfl
            · rename_i hshort hcap
              rw [not_lt] at hshort
              rw [not_or, not_le] at hcap
              apply ih
              · simp only [List.length_append]
                omega
              · simpa using hcap.2

/-- If a drain reports a resolvable cap hit (`cap_hit` without
`cap_unresolvable`), the drained window spans strictly more than
`min_window_blocks` blocks. -/
theorem fetchGo_capHit_resolvable (respond : Nat → List Tx) (stopB stopA : Nat → Bool)
    (start_blk end_blk : Int) (page_size pages_total : Nat)
    (max_pages_int : Option Nat) (min_window_blocks : Nat) :
    ∀ (fuel : Nat) (collected : List Tx) (current_page : Nat) (fr : FetchResult),
      fetchGo respond stopB stopA start_blk end_blk page_size pages_total
        max_pages_int min_window_blocks fuel collected current_page = some fr →
      fr.cap_hit = true → fr.cap_unresolvable = false →
      (min_window_blocks : Int) < end_blk - start_blk + 1 := by
  intro fuel
  induction fuel with
  | zero =>
    intro collected page fr h
    simp [fetchGo] at h
  | succ n ih =>
    intro collected page fr h hc hu
    simp only [fetchGo] at h
    split at h
    · cases h; simp at hc
    · split at h
      · cases h; simp at hc
      · split at h
        · cases h; simp at hc
        · split at h
          · cases h; simp at hc
          · split at h
            · cases h
              simp only [decide_eq_false_iff_not, not_le] at hu
              exact hu
            · exact ih _ _ _ h hc hu

/-- The segment-count high-activity check only touches the high-activity
fields. -/
theorem segHighActivity_fields (st : RunState) :
    (segHighActivity st).seg_start = st.seg_start
    ∧ (segHighActivity st).window_blocks = st.window_blocks
    ∧ (segHighActivity st).pages_total = st.pages_total
    ∧ (segHighActivity st).segment_num = st.segment_num
    ∧ (segHighActivity st).seen = st.seen
    ∧ (segHighActivity st).segments = st.segments
    ∧ (segHighActivity st).coverage_end = st.coverage_end
    ∧ (segHighActivity st).token_seen = st.token_seen := by
  unfold segHighActivity
  split
  · exact ⟨rfl, rfl, rfl, rfl, rfl, rfl, rfl, rfl⟩
  · split
    · exact ⟨rfl, rfl, rfl, rfl, rfl, rfl, rfl, rfl⟩
    · exact ⟨rfl, rfl, rfl, rfl, rfl, rfl, rfl, rfl⟩

/-- The cap-branch high-activity check only touches the high-activity
fields. -/
theorem capHighActivity_fields (st : RunState) :
    (capHighActivity st).seg_start = st.seg_start
    ∧ (capHighActivity st).window_blocks = st.window_blocks
    ∧ (capHighActivity st).pages_total = st.pages_total
    ∧ (capHighActivity st).segment_num = st.segment_num
    ∧ (capHighActivity st).seen = st.seen
    ∧ (capHighActivity st).segments = st.segments
    ∧ (capHighActivity st).coverage_end = st.coverage_end
    ∧ (capHighActivity st).token_seen = st.token_seen := by
  unfold capHighActivity
  split
  · exact ⟨rfl, rfl, rfl, rfl, rfl, rfl, rfl, rfl⟩
  · exact ⟨rfl, rfl, rfl, rfl, rfl, rfl, rfl, rfl⟩

/-- C2.  One iteration of the crawl loop, when it proceeds past the stop and
safety checks and the window fetch returns: on a resolvable cap hit the loop
retries with the window halved (floored at `MIN_WINDOW_BLOCKS`), the cursor
not advanced, the segment count and history unchanged, and the accumulator
untouched; on a full successful drain it appends the segment record, advances
the cursor to `seg_end + 1`, grows the window to
`min(window_blocks * 2, MAX_WINDOW_BLOCKS)`, and counts the segment. -/
theorem run_job_step_cap_and_success (respond : Int → Int → Nat → List Tx)
    (stopTop : Nat → Bool) (stopB stopA : Nat → Nat → Bool)
    (latest_block : Int) (page_size : Nat) (max_pages_int : Option Nat)
    (fuel : Nat) (st : RunState) (fr : FetchResult)
    (hrun : st.seg_start ≤ latest_block)
    (hstop : stopTop (fuel+1) = false)
    (hsafe : st.segment_num + 1 ≤ SAFETY_MAX_SEGMENTS)
    (hwmax : st.window_blocks ≤ MAX_WINDOW_BLOCKS)
    (hfetch : fetch_txlist_window
        (respond st.seg_start (min (st.seg_start + (st.window_blocks : Int) - 1) latest_block))
        (stopB (fuel+1)) (stopA (fuel+1)) st.seg_start
        (min (st.seg_start + (st.window_blocks : Int) - 1) latest_block) page_size
        st.pages_total max_pages_int MIN_WINDOW_BLOCKS = some fr) :
    (fr.paused_hit = false → fr.truncated = false → fr.cap_hit = true →
      fr.cap_unresolvable = false →
      ∃ st', runGo respond stopTop stopB stopA latest_block page_size max_pages_int
            (fuel+1) st
          = runGo respond stopTop stopB stopA latest_block page_size max_pages_int
            fuel st'
        ∧ st'.window_blocks = max (st.window_blocks / 2) MIN_WINDOW_BLOCKS
        ∧ st'.seg_start = st.seg_start
        ∧ st'.segment_num = st.segment_num
        ∧ st'.segments = st.segments
        ∧ st'.seen = st.seen)
    ∧ (fr.paused_hit = false → fr.truncated = false → fr.cap_hit = false →
      ∃ st', runGo respond stopTop stopB stopA latest_block page_size max_pages_int
            (fuel+1) st
          = runGo respond stopTop stopB stopA latest_block page_size max_pages_int
            fuel st'
        ∧ st'.segments = st.segments ++
            [⟨st.seg_start, min (st.seg_start + (st.window_blocks : Int) - 1) latest_block,
              fr.pages_used, fr.txs.length, false⟩]
        ∧ st'.seg_start =
            min (st.seg_start + (st.window_blocks : Int) - 1) latest_block + 1
        ∧ st'.window_blocks = min (st.window_blocks * 2) MAX_WINDOW_BLOCKS
        ∧ st'.segment_num = st.segment_num + 1
        ∧ st'.seen = addTxs st.seen fr.txs) := by
  have hmin : MIN_WINDOW_BLOCKS = 1 := rfl
  constructor
  · intro hp ht hc hu
    have hwin : (MIN_WINDOW_BLOCKS : Int) <
        min (st.seg_start + (st.window_blocks : Int) - 1) latest_block - st.seg_start + 1 :=
      fetchGo_capHit_resolvable _ _ _ _ _ _ _ _ _ _ _ _ _ hfetch hc hu
    have hw1 : MIN_WINDOW_BLOCKS < st.window_blocks := by
      rw [hmin] at hwin ⊢
      rcases le_or_lt (st.seg_start + (st.window_blocks : Int) - 1) latest_block with h | h
      · rw [min_eq_left h] at hwin
        omega
      · rw [min_eq_right (le_of_lt h)] at hwin
        omega
    refine ⟨capHighActivity { st with
        pages_total := st.pages_total + fr.pages_used,
        segment_num := st.segment_num + 1 - 1,
        window_blocks := max (st.window_blocks / 2) MIN_WINDOW_BLOCKS }, ?_, ?_⟩
    · simp only [runGo]
      rw [if_neg (not_lt.mpr hrun), hstop, if_neg (not_lt.mpr hsafe)]
      simp only [Bool.false_eq_true, if_false]
      rw [hfetch]
      simp only [hp, ht, hc, hu, Bool.false_eq_true, if_false, if_true]
      rw [if_pos hw1]
    · obtain ⟨f1, f2, f3, f4, f5, f6, f7, f8⟩ := capHighActivity_fields { st with
        pages_total := st.pages_total + fr.pages_used,
        segment_num := st.segment_num + 1 - 1,
        window_blocks := max (st.window_blocks / 2) MIN_WINDOW_BLOCKS }
      refine ⟨f2.trans rfl, f1.trans rfl, f4.trans ?_, f6.trans rfl, f5.trans rfl⟩
      simp
  · intro hp ht hc
    set seg_end := min (st.seg_start + (st.window_blocks : Int) - 1) latest_block with hse
    set st1 : RunState := { st with
      seen := addTxs st.seen fr.txs,
      segments := st.segments ++ [⟨st.seg_start, seg_end, fr.pages_used, fr.txs.length, false⟩],
      pages_total := st.pages_total + fr.pages_used,
      segment_num := st.segment_num + 1,
      coverage_end := seg_end } with hst1
    refine ⟨{ segHighActivity st1 with
        seg_start := seg_end + 1,
        window_blocks := if (segHighActivity st1).window_blocks < MAX_WINDOW_BLOCKS
          then min ((segHighActivity st1).window_blocks * 2) MAX_WINDOW_BLOCKS
          else (segHighActivity st1).window_blocks }, ?_, ?_, rfl, ?_, ?_, ?_⟩
    · simp only [runGo]
      rw [if_neg (not_lt.mpr hrun), hstop, if_neg (not_lt.mpr hsafe)]
      simp only [Bool.false_eq_true, if_false]
      rw [hfetch]
      simp only [hp, ht, hc, Bool.false_eq_true, if_false]
    · obtain ⟨f1, f2, f3, f4, f5, f6, f7, f8⟩ := segHighActivity_fields st1
      exact f6.trans rfl
    · obtain ⟨f1, f2, f3, f4, f5, f6, f7, f8⟩ := segHighActivity_fields st1
      show (if (segHighActivity st1).window_blocks < MAX_WINDOW_BLOCKS
          then min ((segHighActivity st1).window_blocks * 2) MAX_WINDOW_BLOCKS
          else (segHighActivity st1).window_blocks) = min (st.window_blocks * 2) MAX_WINDOW_BLOCKS
      rw [f2]
      show (if st.window_blocks < MAX_WINDOW_BLOCKS
          then min (st.window_blocks * 2) MAX_WINDOW_BLOCKS
          else st.window_blocks) = min (st.window_blocks * 2) MAX_WINDOW_BLOCKS
      rcases lt_or_eq_of_le hwmax with h | h
      · rw [if_pos h]
      · rw [if_neg (by omega), h]
        omega
    · obtain ⟨f1, f2, f3, f4, f5, f6, f7, f8⟩ := segHighActivity_fields st1
      exact f4.trans rfl
    · obtain ⟨f1, f2, f3, f4, f5, f6, f7, f8⟩ := segHighActivity_fields st1
      exact f5.trans rfl

/-- Concrete instantiation of the C2 theorem: a fresh job over blocks 0-10
whose first (short) page drains the window, so the iteration appends the
segment and counts it. -/
theorem run_job_step_cap_and_success_witness :
    ((initialRunState 0).seg_start ≤ (10 : Int))
    ∧ ∃ st', runGo (fun _ _ _ => []) (fun _ => false) (fun _ _ => false)
          (fun _ _ => false) 10 50 none 1 (initialRunState 0)
        = runGo (fun _ _ _ => []) (fun _ => false) (fun _ _ => false)
          (fun _ _ => false) 10 50 none 0 st'
      ∧ st'.segment_num = (initialRunState 0).segment_num + 1 := by
  refine ⟨by decide, ?_⟩
  obtain ⟨st', heq, hsegs, hss, hw, hnum, hseen⟩ :=
    (run_job_step_cap_and_success (fun _ _ _ => []) (fun _ => false) (fun _ _ => false)
      (fun _ _ => false) 10 50 none 0 (initialRunState 0) ⟨[], 1, false, false, false, false⟩
      (by decide) rfl (by decide) (by decide) rfl).2 rfl rfl rfl
  exact ⟨st', heq, hnum⟩

/-- With a positive page size, `fetch_txlist_window` always returns. -/
theorem fetch_txlist_window_isSome (respond : Nat → List Tx) (stopB stopA : Nat → Bool)
    (start_blk end_blk : Int) (page_size pages_total : Nat)
    (max_pages_int : Option Nat) (min_window_blocks : Nat) (hps : 1 ≤ page_size) :
    (fetch_txlist_window respond stopB stopA start_blk end_blk page_size pages_total
      max_pages_int min_window_blocks).isSome := by
  unfold fetch_txlist_window
  apply fetchGo_isSome _ _ _ _ _ _ _ _ _ hps
  · simp [FETCH_FUEL]
  · simp [MAX_RECORDS_PER_QUERY]

/-- Core termination argument: with a positive page size and a window size in
`[1, MAX_WINDOW_BLOCKS]`, the crawl loop returns a terminal exit other than
the defensive `capMin` branch whenever the fuel exceeds `runMeasure`. -/
theorem runGo_total (respond : Int → Int → Nat → List Tx) (stopTop : Nat → Bool)
    (stopB stopA : Nat → Nat → Bool) (latest_block : Int) (page_size : Nat)
    (max_pages_int : Option Nat) (hps : 1 ≤ page_size) :
    ∀ (fuel : Nat) (st : RunState), 1 ≤ st.window_blocks →
      st.window_blocks ≤ MAX_WINDOW_BLOCKS → runMeasure latest_block st < fuel →
      ∃ ex st', runGo respond stopTop stopB stopA latest_block page_size max_pages_int
          fuel st = some (ex, st') ∧ ex ≠ RunExit.capMin := by
  intro fuel
  induction fuel with
  | zero => intro st _ _ h3; omega
  | succ n ih =>
    intro st h1 h2 h3
    have hMAX : MAX_WINDOW_BLOCKS = 200000 := rfl
    have hMIN : MIN_WINDOW_BLOCKS = 1 := rfl
    by_cases hlt : latest_block < st.seg_start
    · exact ⟨.completed, st, by simp only [runGo]; rw [if_pos hlt], by simp⟩
    cases hstop : stopTop (n+1) with
    | true =>
      refine ⟨.pausedTop, pauseSave st, ?_, by simp⟩
      simp only [runGo]
      rw [if_neg hlt, hstop]
      simp
    | false =>
    by_cases hsafe : SAFETY_MAX_SEGMENTS < st.segment_num + 1
    · refine ⟨.safety, { st with segment_num := st.segment_num + 1 }, ?_, by simp⟩
      simp only [runGo]
      rw [if_neg hlt, hstop]
      simp only [Bool.false_eq_true, if_false]
      rw [if_pos hsafe]
    obtain ⟨fr, hfr⟩ := Option.isSome_iff_exists.mp
      (fetch_txlist_window_isSome
        (respond st.seg_start (min (st.seg_start + (st.window_blocks : Int) - 1) latest_block))
        (stopB (n+1)) (stopA (n+1)) st.seg_start
        (min (st.seg_start + (st.window_blocks : Int) - 1) latest_block) page_size
        st.pages_total max_pages_int MIN_WINDOW_BLOCKS hps)
    have hunfold : runGo respond stopTop stopB stopA latest_block page_size max_pages_int
        (n+1) st =
        (let pages_total := st.pages_total + fr.pages_used
        let seg_end := min (st.seg_start + (st.window_blocks : Int) - 1) latest_block
        let segment_num := st.segment_num + 1
        if fr.paused_hit then
          some (.pausedFetch,
            pauseSave { st with pages_total := pages_total, segment_num := segment_num })
        else if fr.truncated then
          some (.budget, { st with pages_total := pages_total, segment_num := segment_num })
        else if fr.cap_hit then
          if fr.cap_unresolvable then
            some (.capUnres, { st with pages_total := pages_total, segment_num := segment_num })
          else if MIN_WINDOW_BLOCKS < st.window_blocks then
            runGo respond stopTop stopB stopA latest_block page_size max_pages_int n
              (capHighActivity { st with
                pages_total := pages_total,
                segment_num := segment_num - 1,
                window_blocks := max (st.window_blocks / 2) MIN_WINDOW_BLOCKS })
          else
            some (.capMin, { st with pages_total := pages_total, segment_num := segment_num })
        else
          let st1 : RunState :=
            { st with
              seen := addTxs st.seen fr.txs,
              segments := st.segments ++
                [⟨st.seg_start, seg_end, fr.pages_used, fr.txs.length, false⟩],
              pages_total := pages_total,
              segment_num := segment_num,
              coverage_end := seg_end }
          let st2 := segHighActivity st1
          runGo respond stopTop stopB stopA latest_block page_size max_pages_int n
            { st2 with
              seg_start := seg_end + 1,
              window_blocks := if st2.window_blocks < MAX_WINDOW_BLOCKS
                then min (st2.window_blocks * 2) MAX_WINDOW_BLOCKS
                else st2.window_blocks }) := by
      simp only [runGo]
      rw [if_neg hlt, hstop]
      simp only [Bool.false_eq_true, if_false]
      rw [if_neg hsafe, hfr]
    simp only [] at hunfold
    cases hph : fr.paused_hit with
    | true =>
      rw [hph] at hunfold
      simp only [if_true] at hunfold
      exact ⟨_, _, hunfold, by simp⟩
    | false =>
    rw [hph] at hunfold
    simp only [Bool.false_eq_true, if_false] at hunfold
    cases htr : fr.truncated with
    | true =>
      rw [htr] at hunfold
      simp only [if_true] at hunfold
      exact ⟨_, _, hunfold, by simp⟩
    | false =>
    rw [htr] at hunfold
    simp only [Bool.false_eq_true, if_false] at hunfold
    cases hch : fr.cap_hit with
    | true =>
      rw [hch] at hunfold
      simp only [if_true] at hunfold
      cases hcu : fr.cap_unresolvable with
      | true =>
        rw [hcu] at hunfold
        simp only [if_true] at hunfold
        exact ⟨_, _, hunfold, by simp⟩
      | false =>
        rw [hcu] at hunfold
        simp only [Bool.false_eq_true, if_false] at hunfold
        have hwgt : MIN_WINDOW_BLOCKS < st.window_blocks := by
          have hwin := fetchGo_capHit_resolvable _ _ _ _ _ _ _ _ _ _ _ _ _ hfr hch hcu
          rw [hMIN] at hwin ⊢
          push_cast at hwin
          rw [not_lt] at hlt
          omega
        rw [if_pos hwgt] at hunfold
        obtain ⟨f1, f2, f3, f4, f5, f6, f7, f8⟩ := capHighActivity_fields { st with
          pages_total := st.pages_total + fr.pages_used,
          segment_num := st.segment_num + 1 - 1,
          window_blocks := max (st.window_blocks / 2) MIN_WINDOW_BLOCKS }
        obtain ⟨ex, st'', hrec, hne⟩ := ih (capHighActivity { st with
            pages_total := st.pages_total + fr.pages_used,
            segment_num := st.segment_num + 1 - 1,
            window_blocks := max (st.window_blocks / 2) MIN_WINDOW_BLOCKS })
          (by rw [f2]; simp [hMIN])
          (by rw [f2]; simp only []; omega)
          (by
            simp only [runMeasure] at h3 ⊢
            rw [f1, f2]
            simp only []
            rw [hMIN] at *
            omega)
        exact ⟨ex, st'', by rw [hunfold, hrec], hne⟩
    | false =>
      rw [hch] at hunfold
      simp only [Bool.false_eq_true, if_false] at hunfold
      set seg_end := min (st.seg_start + (st.window_blocks : Int) - 1) latest_block with hse
      set st1 : RunState :=
        { st with
          seen := addTxs st.seen fr.txs,
          segments := st.segments ++
            [⟨st.seg_start, seg_end, fr.pages_used, fr.txs.length, false⟩],
          pages_total := st.pages_total + fr.pages_used,
          segment_num := st.segment_num + 1,
          coverage_end := seg_end } with hst1
      obtain ⟨f1, f2, f3, f4, f5, f6, f7, f8⟩ := segHighActivity_fields st1
      have hw2eq : (segHighActivity st1).window_blocks = st.window_blocks := f2.trans rfl
      have hsegend : st.seg_start ≤ seg_end := by
        rw [hse]
        rw [not_lt] at hlt
        omega
      obtain ⟨ex, st'', hrec, hne⟩ := ih
        { segHighActivity st1 with
          seg_start := seg_end + 1,
          window_blocks := if (segHighActivity st1).window_blocks < MAX_WINDOW_BLOCKS
            then min ((segHighActivity st1).window_blocks * 2) MAX_WINDOW_BLOCKS
            else (segHighActivity st1).window_blocks }
        (by
          simp only [hw2eq]
          split <;> omega)
        (by
          simp only [hw2eq]
          split <;> omega)
        (by
          have hlt' : st.seg_start ≤ latest_block := not_lt.mp hlt
          have hmul : (latest_block + 1 - (seg_end + 1)).toNat + 1 ≤
              (latest_block + 1 - st.seg_start).toNat := by
            rw [hse]
            omega
          have hwb : (if st.window_blocks < MAX_WINDOW_BLOCKS
              then min (st.window_blocks * 2) MAX_WINDOW_BLOCKS
              else st.window_blocks) ≤ MAX_WINDOW_BLOCKS := by
            split <;> omega
          simp only [runMeasure, hw2eq] at h3 ⊢
          rw [hMAX] at h3 hwb ⊢
          generalize hT : (latest_block + 1 - (seg_end + 1)).toNat = T at *
          generalize hT2 : (latest_block + 1 - st.seg_start).toNat = T2 at *
          omega)
      exact ⟨ex, st'', by rw [hunfold, hrec], hne⟩

/-- C7.  For every upstream behavior (an arbitrary total response function)
and every stop-flag behavior, a crawl loop started with a positive page size
and a window size within bounds terminates: with fuel `runFuel` it returns a
terminal exit, and that exit is never the defensive `capMin` branch — so every
run ends by natural completion, a pause, a budget stop, the safety abort at
`SAFETY_MAX_SEGMENTS`, or the cap-unresolvable error. -/
theorem run_job_terminates (respond : Int → Int → Nat → List Tx) (stopTop : Nat → Bool)
    (stopB stopA : Nat → Nat → Bool) (latest_block : Int) (page_size : Nat)
    (max_pages_int : Option Nat) (st : RunState) (hps : 1 ≤ page_size)
    (hw1 : 1 ≤ st.window_blocks) (hw2 : st.window_blocks ≤ MAX_WINDOW_BLOCKS) :
    ∃ ex st', runGo respond stopTop stopB stopA latest_block page_size max_pages_int
        (runFuel latest_block st) st = some (ex, st') ∧ ex ≠ RunExit.capMin :=
  runGo_total respond stopTop stopB stopA latest_block page_size max_pages_int hps
    (runFuel latest_block st) st hw1 hw2 (by simp [runFuel])

/-- Concrete instantiation of the C7 theorem: a fresh job over blocks 0-10
with an upstream that always answers with an empty page. -/
theorem run_job_terminates_witness :
    1 ≤ (initialRunState 0).window_blocks
    ∧ ∃ ex st', runGo (fun _ _ _ => []) (fun _ => false) (fun _ _ => false)
        (fun _ _ => false) 10 50 none (runFuel 10 (initialRunState 0))
        (initialRunState 0) = some (ex, st') ∧ ex ≠ RunExit.capMin :=
  ⟨by decide, run_job_terminates (fun _ _ _ => []) (fun _ => false) (fun _ _ => false)
    (fun _ _ => false) 10 50 none (initialRunState 0) (by decide) (by decide) (by decide)⟩

/-- C5 (amended).  When the window fetch reports `truncated` (the global page
budget would be exceeded) on a live iteration, the crawl loop stops with the
`budget` exit, and the final job handling marks the job done, publishes a
result built from everything collected so far, and records the page-budget
status in the job's `error` field as "Stopped due to max_pages limit". -/
theorem run_job_budget_stop (respond : Int → Int → Nat → List Tx) (stopTop : Nat → Bool)
    (stopB stopA : Nat → Nat → Bool) (address : String)
    (start_block latest_block : Int) (page_size : Nat) (max_pages_int : Option Nat)
    (include_tokens : Bool) (fuel : Nat) (st : RunState) (fr : FetchResult)
    (hrun : st.seg_start ≤ latest_block)
    (hstop : stopTop (fuel+1) = false)
    (hsafe : st.segment_num + 1 ≤ SAFETY_MAX_SEGMENTS)
    (hfetch : fetch_txlist_window
        (respond st.seg_start (min (st.seg_start + (st.window_blocks : Int) - 1) latest_block))
        (stopB (fuel+1)) (stopA (fuel+1)) st.seg_start
        (min (st.seg_start + (st.window_blocks : Int) - 1) latest_block) page_size
        st.pages_total max_pages_int MIN_WINDOW_BLOCKS = some fr)
    (hpause : fr.paused_hit = false) (htrunc : fr.truncated = true) :
    runGo respond stopTop stopB stopA latest_block page_size max_pages_int (fuel+1) st
      = some (RunExit.budget,
          { st with pages_total := st.pages_total + fr.pages_used,
                    segment_num := st.segment_num + 1 })
    ∧ (runJobFinish address start_block latest_block include_tokens (RunExit.budget,
        { st with pages_total := st.pages_total + fr.pages_used,
                  segment_num := st.segment_num + 1 })).done = true
    ∧ (runJobFinish address start_block latest_block include_tokens (RunExit.budget,
        { st with pages_total := st.pages_total + fr.pages_used,
                  segment_num := st.segment_num + 1 })).running = false
    ∧ (runJobFinish address start_block latest_block include_tokens (RunExit.budget,
        { st with pages_total := st.pages_total + fr.pages_used,
                  segment_num := st.segment_num + 1 })).error = some max_pages_error_msg
    ∧ (runJobFinish address start_block latest_block include_tokens (RunExit.budget,
        { st with pages_total := st.pages_total + fr.pages_used,
                  segment_num := st.segment_num + 1 })).published
      = some (publishEntry address start_block latest_block include_tokens
          { st with pages_total := st.pages_total + fr.pages_used,
                    segment_num := st.segment_num + 1 })
    ∧ (publishEntry address start_block latest_block include_tokens
          { st with pages_total := st.pages_total + fr.pages_used,
                    segment_num := st.segment_num + 1 }).eth_txs
      = pySortByBlockTs (st.seen.map Prod.snd) := by
  refine ⟨?_, rfl, rfl, rfl, rfl, rfl⟩
  simp only [runGo]
  rw [if_neg (not_lt.mpr hrun), hstop]
  simp only [Bool.false_eq_true, if_false]
  rw [if_neg (not_lt.mpr hsafe), hfetch]
  simp only [hpause, htrunc, Bool.false_eq_true, if_false, if_true]

/-- Concrete instantiation of the C5 theorem: budget of one page, exhausted on
the second window. -/
theorem run_job_budget_stop_witness :
    (fetch_txlist_window ((fun _ _ _ => []) (200000 : Int)
        (min ((200000 : Int) + ((200000 : Nat) : Int) - 1) 250000))
      ((fun _ _ => false) 1) ((fun _ _ => false) 1) 200000
      (min ((200000 : Int) + ((200000 : Nat) : Int) - 1) 250000) 200 1 (some 1)
      MIN_WINDOW_BLOCKS = some ⟨[], 1, false, true, false, false⟩)
    ∧ runGo (fun _ _ _ => []) (fun _ => false) (fun _ _ => false) (fun _ _ => false)
        250000 200 (some 1) 1
        ⟨200000, 200000, 1, 1, [], [⟨0, 199999, 1, 0, false⟩], 199999, [], false, ""⟩
      = some (RunExit.budget,
          { (⟨200000, 200000, 1, 1, [], [⟨0, 199999, 1, 0, false⟩], 199999, [], false, ""⟩ : RunState) with
            pages_total := 1 + 1, segment_num := 1 + 1 }) := by
  refine ⟨rfl, ?_⟩
  exact (run_job_budget_stop (fun _ _ _ => []) (fun _ => false) (fun _ _ => false)
    (fun _ _ => false) "0xabc" 0 250000 200 (some 1) false 0
    ⟨200000, 200000, 1, 1, [], [⟨0, 199999, 1, 0, false⟩], 199999, [], false, ""⟩
    ⟨[], 1, false, true, false, false⟩
    (by decide) rfl (by decide) rfl rfl rfl).1

/-- Counterexample to C5 as stated: a complete crawl run that stops on the
page budget records the budget status in the job's `error` field — the final
job has `error = some "Stopped due to max_pages limit"`, not `none`, even
though it is done and a result was published. -/
theorem run_job_budget_error_recorded :
    ((run_job (fun _ _ _ => []) (fun _ => false) (fun _ _ => false) (fun _ _ => false)
        "0xabc" 0 250000 200 (some 1) false (initialRunState 0)).map FinalJob.error)
      = some (some max_pages_error_msg)
    ∧ ((run_job (fun _ _ _ => []) (fun _ => false) (fun _ _ => false) (fun _ _ => false)
        "0xabc" 0 250000 200 (some 1) false (initialRunState 0)).map FinalJob.done)
      = some true
    ∧ (((run_job (fun _ _ _ => []) (fun _ => false) (fun _ _ => false) (fun _ _ => false)
        "0xabc" 0 250000 200 (some 1) false (initialRunState 0)).bind
        FinalJob.published).map ResultEntry.coverage_end) = some 199999 := by
  refine ⟨rfl, rfl, rfl⟩

/-- Overwriting an existing key in a Python dict leaves the key sequence
unchanged. -/
theorem map_fst_pyDictSet_update {α : Type} (m : List (String × α)) (k : String) (v : α) :
    (m.map (fun p => if p.1 == k then (k, v) else p)).map Prod.fst = m.map Prod.fst := by
  induction m with
  | nil => rfl
  | cons a t ihm =>
    simp only [List.map_cons, ihm]
    congr 1
    by_cases h : (a.1 == k) = true
    · rw [if_pos h]
      exact (eq_of_beq h).symm
    · rw [if_neg h]

/-- Key sequence after a Python dict assignment: unchanged when the key
exists, appended otherwise. -/
theorem pyDictSet_map_fst {α : Type} (m : List (String × α)) (k : String) (v : α) :
    (pyDictSet m k v).map Prod.fst =
      if m.any (fun p => p.1 == k) then m.map Prod.fst else m.map Prod.fst ++ [k] := by
  unfold pyDictSet
  by_cases h : m.any (fun p => p.1 == k) = true
  · rw [if_pos h, if_pos h, map_fst_pyDictSet_update]
  · rw [if_neg h, if_neg h, List.map_append]
    rfl

/-- Dict assignment under the record's own non-empty hash preserves
accumulator well-formedness. -/
theorem pyDictSet_SeenWF (m : List (String × Tx)) (k : String) (v : Tx)
    (hv : v.hash = k) (hk : k ≠ "") (h : SeenWF m) : SeenWF (pyDictSet m k v) := by
  obtain ⟨hnd, hmem⟩ := h
  constructor
  · rw [pyDictSet_map_fst]
    split
    · exact hnd
    · rename_i hany
      rw [List.nodup_append]
      refine ⟨hnd, List.nodup_singleton k, ?_⟩
      intro a ha hb
      rw [List.mem_singleton] at hb
      subst hb
      obtain ⟨p, hp, hpk⟩ := List.mem_map.mp ha
      exact hany (List.any_eq_true.mpr ⟨p, hp, by rw [beq_iff_eq]; exact hpk⟩)
  · intro p hp
    unfold pyDictSet at hp
    split at hp
    · obtain ⟨q, hq, hqe⟩ := List.mem_map.mp hp
      by_cases hqk : (q.1 == k) = true
      · rw [if_pos hqk] at hqe
        rw [← hqe]
        exact ⟨hv, hk⟩
      · rw [if_neg hqk] at hqe
        rw [← hqe]
        exact hmem q hq
    · rw [List.mem_append] at hp
      rcases hp with h1 | h1
      · exact hmem p h1
      · rw [List.mem_singleton] at h1
        subst h1
        exact ⟨hv, hk⟩

/-- The dedup merge preserves accumulator well-formedness. -/
theorem addTxs_SeenWF (txs : List Tx) : ∀ m, SeenWF m → SeenWF (addTxs m txs) := by
  induction txs with
  | nil => intro m h; exact h
  | cons tx t ih =>
    intro m h
    show SeenWF (addTxs (if tx.hash = "" then m else pyDictSet m tx.hash tx) t)
    apply ih
    split
    · exact h
    · rename_i hne
      exact pyDictSet_SeenWF m tx.hash tx rfl hne h

/-- Key membership after a Python dict assignment. -/
theorem pyDictSet_map_fst_mem {α : Type} (m : List (String × α)) (k : String) (v : α)
    (a : String) :
    a ∈ (pyDictSet m k v).map Prod.fst ↔ a ∈ m.map Prod.fst ∨ a = k := by
  rw [pyDictSet_map_fst]
  split
  · rename_i hany
    rw [List.any_eq_true] at hany
    obtain ⟨p, hp, hpk⟩ := hany
    constructor
    · exact Or.inl
    · rintro (h1 | rfl)
      · exact h1
      · exact List.mem_map.mpr ⟨p, hp, eq_of_beq hpk⟩
  · rw [List.mem_append, List.mem_singleton]

/-- Key membership after the dedup merge: the keys are the old keys plus the
non-empty hashes of the merged records. -/
theorem addTxs_map_fst_mem (txs : List Tx) :
    ∀ (m : List (String × Tx)) (a : String),
      a ∈ (addTxs m txs).map Prod.fst ↔
        a ∈ m.map Prod.fst ∨ ∃ tx ∈ txs, tx.hash = a ∧ tx.hash ≠ "" := by
  induction txs with
  | nil => intro m a; simp [addTxs]
  | cons tx t ih =>
    intro m a
    show a ∈ (addTxs (if tx.hash = "" then m else pyDictSet m tx.hash tx) t).map Prod.fst ↔ _
    rw [ih]
    by_cases h : tx.hash = ""
    · rw [if_pos h]
      constructor
      · rintro (h1 | ⟨x, hx, hxa, hxne⟩)
        · exact Or.inl h1
        · exact Or.inr ⟨x, List.mem_cons_of_mem _ hx, hxa, hxne⟩
      · rintro (h1 | ⟨x, hx, hxa, hxne⟩)
        · exact Or.inl h1
        · rcases List.mem_cons.mp hx with hxeq | hx'
          · subst hxeq
            exact absurd h hxne
          · exact Or.inr ⟨x, hx', hxa, hxne⟩
    · rw [if_neg h, pyDictSet_map_fst_mem]
      constructor
      · rintro ((h1 | rfl) | ⟨x, hx, hxa, hxne⟩)
        · exact Or.inl h1
        · exact Or.inr ⟨tx, List.mem_cons_self tx t, rfl, h⟩
        · exact Or.inr ⟨x, List.mem_cons_of_mem _ hx, hxa, hxne⟩
      · rintro (h1 | ⟨x, hx, hxa, hxne⟩)
        · exact Or.inl (Or.inl h1)
        · rcases List.mem_cons.mp hx with hxeq | hx'
          · subst hxeq
            exact Or.inl (Or.inr hxa.symm)
          · exact Or.inr ⟨x, hx', hxa, hxne⟩

/-- Accumulating all window chunks preserves well-formedness. -/
theorem foldl_addTxs_SeenWF (wins : List (List Tx)) :
    ∀ m, SeenWF m → SeenWF (wins.foldl addTxs m) := by
  induction wins with
  | nil => intro m h; exact h
  | cons w t ih => intro m h; exact ih _ (addTxs_SeenWF w m h)

/-- Key membership after accumulating all window chunks. -/
theorem foldl_addTxs_map_fst_mem (wins : List (List Tx)) :
    ∀ (m : List (String × Tx)) (a : String),
      a ∈ ((wins.foldl addTxs m).map Prod.fst) ↔
        a ∈ m.map Prod.fst ∨ ∃ tx ∈ wins.flatten, tx.hash = a ∧ tx.hash ≠ "" := by
  induction wins with
  | nil => intro m a; simp
  | cons w t ih =>
    intro m a
    rw [List.foldl_cons, ih, addTxs_map_fst_mem]
    constructor
    · rintro ((h1 | ⟨x, hx, hxa⟩) | ⟨x, hx, hxa⟩)
      · exact Or.inl h1
      · exact Or.inr ⟨x, by simp [hx], hxa⟩
      · refine Or.inr ⟨x, ?_, hxa⟩
        simp only [List.flatten_cons, List.mem_append]
        exact Or.inr hx
    · rintro (h1 | ⟨x, hx, hxa⟩)
      · exact Or.inl (Or.inl h1)
      · simp only [List.flatten_cons, List.mem_append] at hx
        rcases hx with hx | hx
        · exact Or.inl (Or.inr ⟨x, hx, hxa⟩)
        · exact Or.inr ⟨x, hx, hxa⟩

/-- In a well-formed accumulator, the number of stored records whose hash is
`a` is 1 when `a` is a key and 0 otherwise. -/
theorem countP_snd_hash_of_SeenWF (a : String) :
    ∀ (m : List (String × Tx)), SeenWF m →
      m.countP (fun p => p.2.hash == a) = if a ∈ m.map Prod.fst then 1 else 0 := by
  intro m
  induction m with
  | nil => intro; simp
  | cons p t ih =>
    intro h
    obtain ⟨hnd, hmem⟩ := h
    rw [List.map_cons] at hnd
    have hnd2 := List.nodup_cons.mp hnd
    have hp := hmem p (List.mem_cons_self p t)
    have ht : SeenWF t := ⟨hnd2.2, fun q hq => hmem q (List.mem_cons_of_mem p hq)⟩
    rw [List.countP_cons, ih ht, List.map_cons]
    by_cases hap : a = p.1
    · have hat : a ∉ t.map Prod.fst := by rw [hap]; exact hnd2.1
      have hhead : p.2.hash = a := by rw [hp.1, hap]
      rw [if_neg hat, if_pos (beq_iff_eq.mpr hhead),
        if_pos (show a ∈ p.1 :: List.map Prod.fst t by
          rw [hap]; exact List.mem_cons_self _ _)]
    · have hhead : ¬ p.2.hash = a := by
        rw [hp.1]
        exact fun hcon => hap hcon.symm
      have hheadb : ¬ ((p.2.hash == a) = true) := fun hcon => hhead (beq_iff_eq.mp hcon)
      by_cases hat : a ∈ t.map Prod.fst
      · rw [if_pos hat, if_neg hheadb, if_pos (List.mem_cons_of_mem _ hat)]
      · rw [if_neg hat, if_neg hheadb, if_neg (show ¬ a ∈ p.1 :: List.map Prod.fst t by
          rw [List.mem_cons]
          rintro (h1 | h1)
          · exact hap h1
          · exact hat h1)]

/-- The sort key comparison is transitive. -/
theorem txKeyLe_trans : ∀ a b c : Tx, txKeyLe a b = true → txKeyLe b c = true →
    txKeyLe a c = true := by
  intro a b c hab hbc
  simp only [txKeyLe, decide_eq_true_eq] at *
  omega

/-- The sort key comparison is total. -/
theorem txKeyLe_total : ∀ a b : Tx, (txKeyLe a b || txKeyLe b a) = true := by
  intro a b
  simp only [txKeyLe, Bool.or_eq_true, decide_eq_true_eq]
  omega

/-- Every crawl run's final accumulator is its initial accumulator with some
sequence of fetched window chunks merged in (one `addTxs` per completed
segment). -/
theorem runGo_seen_foldl (respond : Int → Int → Nat → List Tx) (stopTop : Nat → Bool)
    (stopB stopA : Nat → Nat → Bool) (latest_block : Int) (page_size : Nat)
    (max_pages_int : Option Nat) :
    ∀ (fuel : Nat) (st : RunState) (ex : RunExit) (st' : RunState),
      runGo respond stopTop stopB stopA latest_block page_size max_pages_int
        fuel st = some (ex, st') →
      ∃ wins : List (List Tx), st'.seen = wins.foldl addTxs st.seen := by
  intro fuel
  induction fuel with
  | zero => intro st ex st' h; simp [runGo] at h
  | succ n ih =>
    intro st ex st' h
    simp only [runGo] at h
    split at h
    · cases h; exact ⟨[], rfl⟩
    · split at h
      · cases h
        refine ⟨[], ?_⟩
        show (pauseSave st).seen = st.seen
        unfold pauseSave
        split <;> rfl
      · split at h
        · cases h; exact ⟨[], rfl⟩
        · split at h
          · exact Option.noConfusion h
          · rename_i fr hfeq
            split at h
            · cases h
              refine ⟨[], ?_⟩
              show (pauseSave _).seen = st.seen
              unfold pauseSave
              split <;> rfl
            · split at h
              · cases h; exact ⟨[], rfl⟩
              · split at h
                · split at h
                  · cases h; exact ⟨[], rfl⟩
                  · split at h
                    · obtain ⟨wins, hw⟩ := ih _ _ _ h
                      refine ⟨wins, ?_⟩
                      rw [hw]
                      congr 1
                      exact (capHighActivity_fields _).2.2.2.2.1
                    · cases h; exact ⟨[], rfl⟩
                · obtain ⟨wins, hw⟩ := ih _ _ _ h
                  refine ⟨fr.txs :: wins, ?_⟩
                  rw [hw, List.foldl_cons]
                  congr 1
                  exact (segHighActivity_fields _).2.2.2.2.1

/-- C4.  For any sequence of (possibly overlapping, duplicate-bearing) window
chunks merged into the dedup accumulator from empty, the final sorted list —
which is exactly what `publishEntry` publishes as a completed Job's records —
is sorted by ascending `(blockNumber, timeStamp)`, and contains exactly one
record per distinct non-empty hash occurring in the chunks. -/
theorem run_job_result_dedup_sorted (wins : List (List Tx)) :
    List.Pairwise (fun a b : Tx => a.blockNumber < b.blockNumber ∨
        (a.blockNumber = b.blockNumber ∧ a.timeStamp ≤ b.timeStamp))
      (pySortByBlockTs ((wins.foldl addTxs []).map Prod.snd))
    ∧ (∀ a : String, a ≠ "" →
        (pySortByBlockTs ((wins.foldl addTxs []).map Prod.snd)).countP
            (fun tx => tx.hash == a)
          = if wins.flatten.any (fun tx => tx.hash == a) then 1 else 0)
    ∧ (∀ (address : String) (start_block latest_block : Int) (include_tokens : Bool)
        (st : RunState), st.seen = wins.foldl addTxs [] →
        (publishEntry address start_block latest_block include_tokens st).eth_txs
          = pySortByBlockTs ((wins.foldl addTxs []).map Prod.snd))
    ∧ ∀ (respond : Int → Int → Nat → List Tx) (stopTop : Nat → Bool)
        (stopB stopA : Nat → Nat → Bool) (latest_block : Int) (page_size : Nat)
        (max_pages_int : Option Nat) (fuel : Nat) (st0 : RunState) (ex : RunExit)
        (st' : RunState), st0.seen = [] →
        runGo respond stopTop stopB stopA latest_block page_size max_pages_int
          fuel st0 = some (ex, st') →
        ∃ winsR : List (List Tx), st'.seen = winsR.foldl addTxs [] := by
  refine ⟨?_, ?_, ?_, ?_⟩
  · have hs := List.sorted_mergeSort txKeyLe_trans txKeyLe_total
      ((wins.foldl addTxs []).map Prod.snd)
    exact hs.imp (fun hab => by simpa [txKeyLe, decide_eq_true_eq] using hab)
  · intro a ha
    have hperm := List.mergeSort_perm ((wins.foldl addTxs []).map Prod.snd) txKeyLe
    rw [pySortByBlockTs, hperm.countP_eq, List.countP_map]
    have hwf : SeenWF (wins.foldl addTxs []) :=
      foldl_addTxs_SeenWF wins [] ⟨List.nodup_nil, by simp⟩
    have hiff : (a ∈ (wins.foldl addTxs []).map Prod.fst) ↔
        (wins.flatten.any (fun tx => tx.hash == a) = true) := by
      rw [foldl_addTxs_map_fst_mem, List.any_eq_true]
      constructor
      · rintro (h1 | ⟨x, hx, hxa, _⟩)
        · simp at h1
        · exact ⟨x, hx, by rw [beq_iff_eq]; exact hxa⟩
      · rintro ⟨x, hx, hxa⟩
        rw [beq_iff_eq] at hxa
        exact Or.inr ⟨x, hx, hxa, by rw [hxa]; exact ha⟩
    show (wins.foldl addTxs []).countP (fun p => p.2.hash == a) = _
    rw [countP_snd_hash_of_SeenWF a (wins.foldl addTxs []) hwf]
    by_cases hc : wins.flatten.any (fun tx => tx.hash == a) = true
    · rw [if_pos (hiff.mpr hc), if_pos hc]
    · rw [if_neg (fun hin => hc (hiff.mp hin)), if_neg hc]
  · intro address start_block latest_block include_tokens st hseen
    show pySortByBlockTs (st.seen.map Prod.snd) = _
    rw [hseen]
  · intro respond stopTop stopB stopA latest_block page_size max_pages_int fuel
      st0 ex st' hseen0 hrun
    obtain ⟨winsR, hw⟩ := runGo_seen_foldl respond stopTop stopB stopA latest_block
      page_size max_pages_int fuel st0 ex st' hrun
    rw [hseen0] at hw
    exact ⟨winsR, hw⟩

/-- Concrete instantiation of the C4 theorem: two overlapping windows both
returning the record with hash `"0xh"`, plus one record with a falsy hash;
the final list contains the `"0xh"` record exactly once. -/
theorem run_job_result_dedup_sorted_witness :
    ("0xh" ≠ "")
    ∧ (pySortByBlockTs (([[(⟨"0xh", 3, 4⟩ : Tx)],
          [(⟨"0xh", 3, 4⟩ : Tx), (⟨"", 9, 9⟩ : Tx)]].foldl addTxs []).map Prod.snd)).countP
        (fun tx => tx.hash == "0xh")
      = if [[(⟨"0xh", 3, 4⟩ : Tx)],
          [(⟨"0xh", 3, 4⟩ : Tx), (⟨"", 9, 9⟩ : Tx)]].flatten.any (fun tx => tx.hash == "0xh")
        then 1 else 0 :=
  ⟨by decide,
    (run_job_result_dedup_sorted [[(⟨"0xh", 3, 4⟩ : Tx)],
      [(⟨"0xh", 3, 4⟩ : Tx), (⟨"", 9, 9⟩ : Tx)]]).2.1 "0xh" (by decide)⟩

/-- The crawl loop never writes the token accumulator: whatever it returns
carries `token_seen` unchanged. -/
theorem runGo_token_seen (respond : Int → Int → Nat → List Tx) (stopTop : Nat → Bool)
    (stopB stopA : Nat → Nat → Bool) (latest_block : Int) (page_size : Nat)
    (max_pages_int : Option Nat) :
    ∀ (fuel : Nat) (st : RunState) (ex : RunExit) (st' : RunState),
      runGo respond stopTop stopB stopA latest_block page_size max_pages_int
        fuel st = some (ex, st') →
      st'.token_seen = st.token_seen := by
  intro fuel
  induction fuel with
  | zero => intro st ex st' h; simp [runGo] at h
  | succ n ih =>
    intro st ex st' h
    simp only [runGo] at h
    split at h
    · cases h; rfl
    · split at h
      · cases h
        show (pauseSave st).token_seen = st.token_seen
        unfold pauseSave
        split <;> rfl
      · split at h
        · cases h; rfl
        · split at h
          · exact Option.noConfusion h
          · split at h
            · cases h
              show (pauseSave _).token_seen = st.token_seen
              unfold pauseSave
              split <;> rfl
            · split at h
              · cases h; rfl
              · split at h
                · split at h
                  · cases h; rfl
                  · split at h
                    · rw [ih _ _ _ h]
                      exact (capHighActivity_fields _).2.2.2.2.2.2.2
                    · cases h; rfl
                · rw [ih _ _ _ h]
                  exact (segHighActivity_fields _).2.2.2.2.2.2.2

/-- C8.  The crawl run never writes the token accumulator: any run that starts
with an empty `token_seen` ends with it still empty, the published result's
token-transfer list is `none` whatever `include_tokens` is, and every other
observable of the final job — flags, error, state, and the published ETH
records, coverage and segments — is identical for `include_tokens = true` and
`include_tokens = false` (the loop itself takes no `include_tokens` input at
all). -/
theorem run_job_token_frame (respond : Int → Int → Nat → List Tx) (stopTop : Nat → Bool)
    (stopB stopA : Nat → Nat → Bool) (latest_block : Int) (page_size : Nat)
    (max_pages_int : Option Nat) (address : String) (start_block : Int)
    (fuel : Nat) (st : RunState) (ex : RunExit) (st' : RunState)
    (h : runGo respond stopTop stopB stopA latest_block page_size max_pages_int
      fuel st = some (ex, st'))
    (htok : st.token_seen = []) :
    st'.token_seen = []
    ∧ (∀ (include_tokens : Bool) (e : ResultEntry),
        (runJobFinish address start_block latest_block include_tokens (ex, st')).published
          = some e → e.token_txs = none)
    ∧ (runJobFinish address start_block latest_block true (ex, st')).error
        = (runJobFinish address start_block latest_block false (ex, st')).error
    ∧ (runJobFinish address start_block latest_block true (ex, st')).done
        = (runJobFinish address start_block latest_block false (ex, st')).done
    ∧ (runJobFinish address start_block latest_block true (ex, st')).paused
        = (runJobFinish address start_block latest_block false (ex, st')).paused
    ∧ (runJobFinish address start_block latest_block true (ex, st')).running
        = (runJobFinish address start_block latest_block false (ex, st')).running
    ∧ (runJobFinish address start_block latest_block true (ex, st')).state
        = (runJobFinish address start_block latest_block false (ex, st')).state
    ∧ ((runJobFinish address start_block latest_block true (ex, st')).published).map
          ResultEntry.eth_txs
        = ((runJobFinish address start_block latest_block false (ex, st')).published).map
          ResultEntry.eth_txs
    ∧ ((runJobFinish address start_block latest_block true (ex, st')).published).map
          ResultEntry.coverage_start
        = ((runJobFinish address start_block latest_block false (ex, st')).published).map
          ResultEntry.coverage_start
    ∧ ((runJobFinish address start_block latest_block true (ex, st')).published).map
          ResultEntry.coverage_end
        = ((runJobFinish address start_block latest_block false (ex, st')).published).map
          ResultEntry.coverage_end
    ∧ ((runJobFinish address start_block latest_block true (ex, st')).published).map
          ResultEntry.segments
        = ((runJobFinish address start_block latest_block false (ex, st')).published).map
          ResultEntry.segments := by
  have htok' : st'.token_seen = [] :=
    (runGo_token_seen respond stopTop stopB stopA latest_block page_size max_pages_int
      fuel st ex st' h).trans htok
  refine ⟨htok', ?_, ?_⟩
  · intro include_tokens e he
    cases ex <;> simp only [runJobFinish] at he
    · rw [Option.some_inj] at he
      rw [← he]
      simp [publishEntry, htok']
    · exact Option.noConfusion he
    · exact Option.noConfusion he
    · exact Option.noConfusion he
    · rw [Option.some_inj] at he
      rw [← he]
      simp [publishEntry, htok']
    · exact Option.noConfusion he
    · exact Option.noConfusion he
  · cases ex <;> simp [runJobFinish, publishEntry]

/-- Concrete instantiation of the C8 theorem: a one-window crawl over blocks
0-10 with empty upstream pages; the run completes and the token accumulator is
still empty. -/
theorem run_job_token_frame_witness :
    runGo (fun _ _ _ => []) (fun _ => false) (fun _ _ => false) (fun _ _ => false)
        10 50 none 2 (initialRunState 0)
      = some (RunExit.completed,
          ⟨11, 200000, 1, 1, [], [⟨0, 10, 1, 0, false⟩], 10, [], false, ""⟩)
    ∧ (⟨11, 200000, 1, 1, [], [⟨0, 10, 1, 0, false⟩], 10, [], false, ""⟩ :
        RunState).token_seen = [] :=
  ⟨rfl, (run_job_token_frame (fun _ _ _ => []) (fun _ => false) (fun _ _ => false)
    (fun _ _ => false) 10 50 none "0xabc" 0 2 (initialRunState 0) RunExit.completed
    ⟨11, 200000, 1, 1, [], [⟨0, 10, 1, 0, false⟩], 10, [], false, ""⟩ rfl rfl).1⟩

/-- C6.  `crawl_resume` succeeds exactly when the job is paused, not running
and not done; on success it clears the pause and stop flags, marks the job
running with no error, sets the cursor to `coverage_end + 1` when a coverage
end is recorded, and leaves the saved `window_blocks` unchanged for the
relaunched loop; in every other case it answers with an error response. -/
theorem crawl_resume_contract (job : JobRec) :
    ((crawl_resume job).1 = ResumeResp.resumed ↔
      (job.paused = true ∧ job.running = false ∧ job.done = false))
    ∧ (job.paused = true → job.running = false → job.done = false →
        (∀ c : Int, job.coverage_end = some c → (crawl_resume job).2.seg_start = c + 1)
        ∧ (crawl_resume job).2.window_blocks = job.window_blocks
        ∧ (crawl_resume job).2.running = true
        ∧ (crawl_resume job).2.paused = false
        ∧ (crawl_resume job).2.stop_requested = false
        ∧ (crawl_resume job).2.error = none)
    ∧ (job.paused = false ∨ job.running = true ∨ job.done = true →
        ∃ msg, (crawl_resume job).1 = ResumeResp.badRequest msg) := by
  refine ⟨?_, ?_, ?_⟩
  · cases hp : job.paused <;> cases hr : job.running <;> cases hd : job.done <;>
      simp [crawl_resume, hp, hr, hd]
  · intro hp hr hd
    refine ⟨?_, ?_, ?_, ?_, ?_, ?_⟩
    · intro c hc
      simp [crawl_resume, hp, hr, hd, hc]
    all_goals cases hcov : job.coverage_end <;> simp [crawl_resume, hp, hr, hd, hcov]
  · intro hbad
    rcases hbad with h | h | h
    · exact ⟨"Job is not paused", by simp [crawl_resume, h]⟩
    · cases hp : job.paused
      · exact ⟨"Job is not paused", by simp [crawl_resume, hp]⟩
      · exact ⟨"Job is already running", by simp [crawl_resume, hp, h]⟩
    · cases hp : job.paused
      · exact ⟨"Job is not paused", by simp [crawl_resume, hp]⟩
      · cases hr : job.running
        · exact ⟨"Job is already done", by simp [crawl_resume, hp, hr, h]⟩
        · exact ⟨"Job is already running", by simp [crawl_resume, hp, hr]⟩

/-- Concrete instantiation of the C6 theorem: a paused job with coverage up to
block 41 resumes at block 42 with its saved window size. -/
theorem crawl_resume_contract_witness :
    ((⟨"0xa", 5, false, 200, none, 5, 1000, some 41, false, false, true, false, none⟩ :
        JobRec).paused = true)
    ∧ (crawl_resume
        ⟨"0xa", 5, false, 200, none, 5, 1000, some 41, false, false, true, false, none⟩).2.seg_start
      = 41 + 1 :=
  ⟨rfl, ((crawl_resume_contract
    ⟨"0xa", 5, false, 200, none, 5, 1000, some 41, false, false, true, false, none⟩).2.1
    rfl rfl rfl).1 41 rfl⟩

/-- A Python dict assignment keeps the key sequence duplicate-free. -/
theorem pyDictSet_keys_nodup {α : Type} (m : List (String × α)) (k : String) (v : α)
    (h : (m.map Prod.fst).Nodup) : ((pyDictSet m k v).map Prod.fst).Nodup := by
  rw [pyDictSet_map_fst]
  split
  · exact h
  · rename_i hany
    rw [List.nodup_append]
    refine ⟨h, List.nodup_singleton k, ?_⟩
    intro a ha hb
    rw [List.mem_singleton] at hb
    subst hb
    obtain ⟨p, hp, hpk⟩ := List.mem_map.mp ha
    exact hany (List.any_eq_true.mpr ⟨p, hp, by rw [beq_iff_eq]; exact hpk⟩)

/-- A Python dict delete keeps the key sequence duplicate-free. -/
theorem pyDictDel_keys_nodup {α : Type} (m : List (String × α)) (k : String)
    (h : (m.map Prod.fst).Nodup) : ((pyDictDel m k).map Prod.fst).Nodup :=
  List.Nodup.sublist (List.Sublist.map Prod.fst (List.filter_sublist m)) h

/-- Keys surviving a Python dict delete are old keys other than the deleted
one. -/
theorem pyDictDel_map_fst_mem {α : Type} (m : List (String × α)) (k a : String)
    (h : a ∈ (pyDictDel m k).map Prod.fst) : a ∈ m.map Prod.fst ∧ a ≠ k := by
  obtain ⟨p, hp, hpa⟩ := List.mem_map.mp h
  unfold pyDictDel at hp
  rw [List.mem_filter] at hp
  refine ⟨List.mem_map.mpr ⟨p, hp.1, hpa⟩, ?_⟩
  intro hak
  have := hp.2
  subst hpa
  subst hak
  simp at this

/-- A duplicate-free list included in another list is no longer than it. -/
theorem nodup_subset_length {l1 l2 : List String} (h1 : l1.Nodup) (h2 : l1 ⊆ l2) :
    l1.length ≤ l2.length :=
  (h1.subperm h2).length_le

/-- C9.  After a job creation the id list and the jobs dict hold at most
`JOBS_SIZE_LIMIT = 20` entries, with the oldest id evicted first when the
bound would be exceeded, and the results cache is untouched — so a held
result id still resolves after its job is evicted; after a result publication
the result id list and cache hold at most `CACHE_SIZE_LIMIT = 10` entries,
oldest evicted first, and the job registry is untouched. -/
theorem stores_bounded_fifo (s : Stores) (job_id : String) (job : JobRec)
    (result_id : String) (entry : ResultEntry)
    (hjn : (s.JOBS.map Prod.fst).Nodup)
    (hjsub : ∀ k ∈ s.JOBS.map Prod.fst, k ∈ s.JOB_IDS)
    (hjlen : s.JOB_IDS.length ≤ JOBS_SIZE_LIMIT)
    (hrn : (s.RESULTS_CACHE.map Prod.fst).Nodup)
    (hrsub : ∀ k ∈ s.RESULTS_CACHE.map Prod.fst, k ∈ s.RESULT_IDS)
    (hrlen : s.RESULT_IDS.length ≤ CACHE_SIZE_LIMIT) :
    ((crawl_all_start_store s job_id job).JOB_IDS.length ≤ JOBS_SIZE_LIMIT
    ∧ ((crawl_all_start_store s job_id job).JOBS.map Prod.fst).Nodup
    ∧ (∀ k ∈ (crawl_all_start_store s job_id job).JOBS.map Prod.fst,
        k ∈ (crawl_all_start_store s job_id job).JOB_IDS)
    ∧ (crawl_all_start_store s job_id job).JOBS.length ≤ JOBS_SIZE_LIMIT
    ∧ (JOBS_SIZE_LIMIT < s.JOB_IDS.length + 1 →
        (crawl_all_start_store s job_id job).JOB_IDS = (s.JOB_IDS ++ [job_id]).tail)
    ∧ (crawl_all_start_store s job_id job).RESULT_IDS = s.RESULT_IDS
    ∧ (crawl_all_start_store s job_id job).RESULTS_CACHE = s.RESULTS_CACHE)
    ∧ ((publish_result_store s result_id entry).RESULT_IDS.length ≤ CACHE_SIZE_LIMIT
    ∧ ((publish_result_store s result_id entry).RESULTS_CACHE.map Prod.fst).Nodup
    ∧ (∀ k ∈ (publish_result_store s result_id entry).RESULTS_CACHE.map Prod.fst,
        k ∈ (publish_result_store s result_id entry).RESULT_IDS)
    ∧ (publish_result_store s result_id entry).RESULTS_CACHE.length ≤ CACHE_SIZE_LIMIT
    ∧ (CACHE_SIZE_LIMIT < s.RESULT_IDS.length + 1 →
        (publish_result_store s result_id entry).RESULT_IDS
          = (s.RESULT_IDS ++ [result_id]).tail)
    ∧ (publish_result_store s result_id entry).JOB_IDS = s.JOB_IDS
    ∧ (publish_result_store s result_id entry).JOBS = s.JOBS) := by
  constructor
  · by_cases hover : JOBS_SIZE_LIMIT < (s.JOB_IDS ++ [job_id]).length
    · have hlen1 : (s.JOB_IDS ++ [job_id]).length = s.JOB_IDS.length + 1 := by
        simp
      have hJne : s.JOB_IDS ≠ [] := by
        intro hnil
        rw [hnil] at hover
        have h20 : JOBS_SIZE_LIMIT = 20 := rfl
        simp [h20] at hover
      obtain ⟨j0, jt, hJ⟩ := List.exists_cons_of_ne_nil hJne
      have hids : s.JOB_IDS ++ [job_id] = j0 :: (jt ++ [job_id]) := by rw [hJ]; rfl
      have hstore : crawl_all_start_store s job_id job =
          { s with JOB_IDS := jt ++ [job_id],
                   JOBS := pyDictSet (pyDictDel s.JOBS j0) job_id job } := by
        unfold crawl_all_start_store
        rw [hids]
        rw [if_pos (by rw [← hids]; exact hover)]
      rw [hstore]
      have hkeysnd : ((pyDictSet (pyDictDel s.JOBS j0) job_id job).map Prod.fst).Nodup :=
        pyDictSet_keys_nodup _ _ _ (pyDictDel_keys_nodup _ _ hjn)
      have hkeysub : ∀ k ∈ (pyDictSet (pyDictDel s.JOBS j0) job_id job).map Prod.fst,
          k ∈ jt ++ [job_id] := by
        intro k hk
        rcases (pyDictSet_map_fst_mem _ _ _ _).mp hk with hk1 | hk1
        · obtain ⟨hk2, hk3⟩ := pyDictDel_map_fst_mem _ _ _ hk1
          have := hjsub k hk2
          rw [hJ, List.mem_cons] at this
          rcases this with h1 | h1
          · exact absurd h1 hk3
          · exact List.mem_append_left _ h1
        · subst hk1
          exact List.mem_append_right _ (List.mem_singleton.mpr rfl)
      refine ⟨?_, hkeysnd, hkeysub, ?_, ?_, rfl, rfl⟩
      · simp only []
        have : (jt ++ [job_id]).length = s.JOB_IDS.length := by
          rw [hJ]; simp
        omega
      · simp only []
        have hle := nodup_subset_length hkeysnd hkeysub
        rw [List.length_map] at hle
        have : (jt ++ [job_id]).length = s.JOB_IDS.length := by
          rw [hJ]; simp
        omega
      · intro _
        simp only []
        rw [hids]
        rfl
    · have hstore : crawl_all_start_store s job_id job =
          { s with JOB_IDS := s.JOB_IDS ++ [job_id],
                   JOBS := pyDictSet s.JOBS job_id job } := by
        unfold crawl_all_start_store
        cases hc : s.JOB_IDS ++ [job_id] with
        | nil => exact absurd hc (by simp)
        | cons x xs =>
          rw [if_neg (by rw [← hc]; exact hover)]
      rw [hstore]
      have hkeysnd := pyDictSet_keys_nodup s.JOBS job_id job hjn
      have hkeysub : ∀ k ∈ (pyDictSet s.JOBS job_id job).map Prod.fst,
          k ∈ s.JOB_IDS ++ [job_id] := by
        intro k hk
        rcases (pyDictSet_map_fst_mem _ _ _ _).mp hk with hk1 | hk1
        · exact List.mem_append_left _ (hjsub k hk1)
        · subst hk1
          exact List.mem_append_right _ (List.mem_singleton.mpr rfl)
      refine ⟨?_, hkeysnd, hkeysub, ?_, ?_, rfl, rfl⟩
      · simp only []
        rw [not_lt] at hover
        exact hover
      · simp only []
        have hle := nodup_subset_length hkeysnd hkeysub
        rw [List.length_map] at hle
        rw [not_lt] at hover
        omega
      · intro hcon
        exfalso
        rw [not_lt] at hover
        simp only [List.length_append, List.length_singleton] at hover
        omega
  · by_cases hover : CACHE_SIZE_LIMIT < (s.RESULT_IDS ++ [result_id]).length
    · have hRne : s.RESULT_IDS ≠ [] := by
        intro hnil
        rw [hnil] at hover
        have h10 : CACHE_SIZE_LIMIT = 10 := rfl
        simp [h10] at hover
      obtain ⟨r0, rt, hR⟩ := List.exists_cons_of_ne_nil hRne
      have hids : s.RESULT_IDS ++ [result_id] = r0 :: (rt ++ [result_id]) := by
        rw [hR]; rfl
      have hstore : publish_result_store s result_id entry =
          { s with RESULT_IDS := rt ++ [result_id],
                   RESULTS_CACHE := pyDictDel (pyDictSet s.RESULTS_CACHE result_id entry) r0 } := by
        unfold publish_result_store
        rw [hids]
        rw [if_pos (by rw [← hids]; exact hover)]
      rw [hstore]
      have hkeysnd : ((pyDictDel (pyDictSet s.RESULTS_CACHE result_id entry) r0).map
          Prod.fst).Nodup :=
        pyDictDel_keys_nodup _ _ (pyDictSet_keys_nodup _ _ _ hrn)
      have hkeysub : ∀ k ∈ (pyDictDel (pyDictSet s.RESULTS_CACHE result_id entry) r0).map
          Prod.fst, k ∈ rt ++ [result_id] := by
        intro k hk
        obtain ⟨hk1, hk2⟩ := pyDictDel_map_fst_mem _ _ _ hk
        rcases (pyDictSet_map_fst_mem _ _ _ _).mp hk1 with hk3 | hk3
        · have := hrsub k hk3
          rw [hR, List.mem_cons] at this
          rcases this with h1 | h1
          · exact absurd h1 hk2
          · exact List.mem_append_left _ h1
        · subst hk3
          exact List.mem_append_right _ (List.mem_singleton.mpr rfl)
      refine ⟨?_, hkeysnd, hkeysub, ?_, ?_, rfl, rfl⟩
      · simp only []
        have : (rt ++ [result_id]).length = s.RESULT_IDS.length := by
          rw [hR]; simp
        omega
      · simp only []
        have hle := nodup_subset_length hkeysnd hkeysub
        rw [List.length_map] at hle
        have : (rt ++ [result_id]).length = s.RESULT_IDS.length := by
          rw [hR]; simp
        omega
      · intro _
        simp only []
        rw [hids]
        rfl
    · have hstore : publish_result_store s result_id entry =
          { s with RESULT_IDS := s.RESULT_IDS ++ [result_id],
                   RESULTS_CACHE := pyDictSet s.RESULTS_CACHE result_id entry } := by
        unfold publish_result_store
        cases hc : s.RESULT_IDS ++ [result_id] with
        | nil => exact absurd hc (by simp)
        | cons x xs =>
          rw [if_neg (by rw [← hc]; exact hover)]
      rw [hstore]
      have hkeysnd := pyDictSet_keys_nodup s.RESULTS_CACHE result_id entry hrn
      have hkeysub : ∀ k ∈ (pyDictSet s.RESULTS_CACHE result_id entry).map Prod.fst,
          k ∈ s.RESULT_IDS ++ [result_id] := by
        intro k hk
        rcases (pyDictSet_map_fst_mem _ _ _ _).mp hk with hk1 | hk1
        · exact List.mem_append_left _ (hrsub k hk1)
        · subst hk1
          exact List.mem_append_right _ (List.mem_singleton.mpr rfl)
      refine ⟨?_, hkeysnd, hkeysub, ?_, ?_, rfl, rfl⟩
      · simp only []
        rw [not_lt] at hover
        exact hover
      · simp only []
        have hle := nodup_subset_length hkeysnd hkeysub
        rw [List.length_map] at hle
        rw [not_lt] at hover
        omega
      · intro hcon
        exfalso
        rw [not_lt] at hover
        simp only [List.length_append, List.length_singleton] at hover
        omega

/-- Concrete instantiation of the C9 theorem: adding a job to an empty store
keeps both bounds and leaves the results cache untouched. -/
theorem stores_bounded_fifo_witness :
    ((⟨[], [], [], []⟩ : Stores).JOB_IDS.length ≤ JOBS_SIZE_LIMIT)
    ∧ (crawl_all_start_store ⟨[], [], [], []⟩ "j1"
        ⟨"0xa", 0, false, 200, none, 0, 200000, some (-1), false, false, false, false, none⟩).JOBS.length
      ≤ JOBS_SIZE_LIMIT :=
  ⟨by decide,
    (stores_bounded_fifo ⟨[], [], [], []⟩ "j1"
      ⟨"0xa", 0, false, 200, none, 0, 200000, some (-1), false, false, false, false, none⟩
      "r1" ⟨[], "0xa", 0, 0, 0, 0, 0, [], false, none⟩
      (by simp) (by simp) (by simp) (by simp) (by simp) (by simp)).1.2.2.2.1⟩

/-- C10.  The page-size clamp of `crawl_all_start` maps every requested value
into `[50, 500]` (values below 50 become 50, above 500 become 500, in-range
values pass through), and the created job — whose stored page size every page
fetch of its run uses — stores exactly the clamped value. -/
theorem page_size_clamped (page_size : Int) (address : String) (start_block : Int)
    (include_tokens : Bool) (max_pages_int : Option Nat) :
    50 ≤ pageSizeClamp page_size
    ∧ pageSizeClamp page_size ≤ 500
    ∧ (50 ≤ page_size → page_size ≤ 500 → pageSizeClamp page_size = page_size)
    ∧ (page_size < 50 → pageSizeClamp page_size = 50)
    ∧ (500 < page_size → pageSizeClamp page_size = 500)
    ∧ (createJob address start_block include_tokens max_pages_int page_size).page_size
        = (pageSizeClamp page_size).toNat
    ∧ 50 ≤ (createJob address start_block include_tokens max_pages_int page_size).page_size
    ∧ (createJob address start_block include_tokens max_pages_int page_size).page_size ≤ 500 := by
  have h1 : 50 ≤ pageSizeClamp page_size := le_max_left _ _
  have h2 : pageSizeClamp page_size ≤ 500 := by
    unfold pageSizeClamp
    rcases le_or_lt page_size 500 with h | h
    · omega
    · omega
  refine ⟨h1, h2, ?_, ?_, ?_, rfl, ?_, ?_⟩
  · intro ha hb
    unfold pageSizeClamp
    omega
  · intro ha
    unfold pageSizeClamp
    omega
  · intro ha
    unfold pageSizeClamp
    omega
  · show 50 ≤ (pageSizeClamp page_size).toNat
    omega
  · show (pageSizeClamp page_size).toNat ≤ 500
    omega

/-- Concrete instantiation of the C10 theorem: a request for page size 7 is
clamped to 50. -/
theorem page_size_clamped_witness :
    ((7 : Int) < 50) ∧ pageSizeClamp 7 = 50 :=
  ⟨by decide, (page_size_clamped 7 "0xa" 0 false none).2.2.2.1 (by decide)⟩

/-- A retry-triggering attempt that is not the last one sleeps its backoff and
moves to the next attempt. -/
theorem etherscanGetGo_retry_step (resp : Nat → Resp) (attempt remaining : Nat)
    (delays : List Nat) (hlt : attempt < max_attempts - 1)
    (h : triggersRetry (resp attempt) = true) :
    etherscanGetGo resp (remaining+1) attempt delays
      = etherscanGetGo resp remaining (attempt+1)
          (delays ++ [backoff_times.getD attempt 0]) := by
  cases hr : resp attempt
  case timeout e =>
    simp only [etherscanGetGo, hr]
    rw [if_pos hlt]
  case connError e =>
    simp only [etherscanGetGo, hr]
    rw [if_pos hlt]
  case httpError code text =>
    rw [hr] at h
    simp only [triggersRetry] at h
    have hc : code = 429 := by simpa using h
    simp only [etherscanGetGo, hr]
    rw [if_pos hc, if_pos hlt]
  case badJson text =>
    simp only [etherscanGetGo, hr]
    rw [if_pos hlt]
  case jsonOk status message resultStr text =>
    rw [hr] at h
    simp only [triggersRetry] at h
    simp only [etherscanGetGo, hr]
    cases hrl : is_rate_limit_resp status message resultStr
    · rw [if_neg (by rintro ⟨hcon, -⟩; exact Bool.noConfusion hcon),
        if_pos ⟨by rw [h]; rfl, hlt⟩]
    · rw [if_pos ⟨rfl, hlt⟩]
  case otherExc e =>
    simp only [etherscanGetGo, hr]
    rw [if_pos hlt]

/-- C3 (amended).  When all three attempts trigger a retry condition, `_get`
makes exactly 3 attempts with backoff delays 1s then 2s between them; it then
raises a fatal `RuntimeError` embedding the last exception or a truncated
snippet of the last body when the final trigger is transport-level (timeout,
connection failure, HTTP 429, non-parseable body, unexpected exception), but
when the final trigger is an application-level rate-limit or not-OK signal in
a parseable response, the parsed JSON is returned as a value instead.  An HTTP
error status other than 429 is always raised immediately with no retry. -/
theorem etherscan_get_retry_behavior (resp : Nat → Resp)
    (h0 : triggersRetry (resp 0) = true) (h1 : triggersRetry (resp 1) = true)
    (h2 : triggersRetry (resp 2) = true) :
    (etherscan_get resp).attempts = 3
    ∧ (etherscan_get resp).delays = [1, 2]
    ∧ (∀ e, resp 2 = .timeout e → (etherscan_get resp).outcome
        = .fatal ("Etherscan API request timed out after 3 attempts. Last error: " ++ e))
    ∧ (∀ e, resp 2 = .connError e → (etherscan_get resp).outcome
        = .fatal ("Etherscan API connection failed after 3 attempts. Last error: " ++ e))
    ∧ (∀ text, resp 2 = .httpError 429 text → (etherscan_get resp).outcome
        = .fatal ("Etherscan API returned HTTP 429 after 3 attempts. Last response: "
            ++ text.take 200))
    ∧ (∀ text, resp 2 = .badJson text → (etherscan_get resp).outcome
        = .fatal ("Etherscan API returned invalid JSON after 3 attempts. Last response: "
            ++ text.take 200))
    ∧ (∀ e, resp 2 = .otherExc e → (etherscan_get resp).outcome
        = .fatal ("Etherscan API request failed after 3 attempts. Last error: " ++ e))
    ∧ (∀ status message resultStr text, resp 2 = .jsonOk status message resultStr text →
        (etherscan_get resp).outcome = .value status message resultStr text)
    ∧ (∀ (respB : Nat → Resp) (code : Nat) (text : String), code ≠ 429 →
        respB 0 = .httpError code text →
        etherscan_get respB = ⟨.httpRaise code text, [], 1⟩)
    ∧ (∀ (respB : Nat → Resp) (code : Nat) (text : String), code ≠ 429 →
        triggersRetry (respB 0) = true → respB 1 = .httpError code text →
        etherscan_get respB = ⟨.httpRaise code text, [1], 2⟩)
    ∧ (∀ (respB : Nat → Resp) (code : Nat) (text : String), code ≠ 429 →
        triggersRetry (respB 0) = true → triggersRetry (respB 1) = true →
        respB 2 = .httpError code text →
        etherscan_get respB = ⟨.httpRaise code text, [1, 2], 3⟩) := by
  have hstep : etherscan_get resp = etherscanGetGo resp 1 2 [1, 2] := by
    unfold etherscan_get
    rw [show max_attempts = 3 from rfl]
    rw [etherscanGetGo_retry_step resp 0 2 [] (by decide) h0]
    rw [etherscanGetGo_retry_step resp 1 1 _ (by decide) h1]
    rfl
  have hae : (etherscan_get resp).attempts = 3 ∧ (etherscan_get resp).delays = [1, 2] := by
    rw [hstep]
    cases hr2 : resp 2
    case timeout e =>
      simp only [etherscanGetGo, hr2]
      rw [if_neg (by decide)]
      exact ⟨rfl, rfl⟩
    case connError e =>
      simp only [etherscanGetGo, hr2]
      rw [if_neg (by decide)]
      exact ⟨rfl, rfl⟩
    case httpError code text =>
      rw [hr2] at h2
      simp only [triggersRetry] at h2
      have hc : code = 429 := by simpa using h2
      simp only [etherscanGetGo, hr2]
      rw [if_pos hc, if_neg (by decide)]
      exact ⟨rfl, rfl⟩
    case badJson text =>
      simp only [etherscanGetGo, hr2]
      rw [if_neg (by decide)]
      exact ⟨rfl, rfl⟩
    case jsonOk status message resultStr text =>
      simp only [etherscanGetGo, hr2]
      rw [if_neg (by rintro ⟨-, hlt⟩; exact absurd hlt (by decide)),
        if_neg (by rintro ⟨-, hlt⟩; exact absurd hlt (by decide))]
      exact ⟨rfl, rfl⟩
    case otherExc e =>
      simp only [etherscanGetGo, hr2]
      rw [if_neg (by decide)]
      exact ⟨rfl, rfl⟩
  refine ⟨hae.1, hae.2, ?_, ?_, ?_, ?_, ?_, ?_, ?_, ?_, ?_⟩
  · intro e he
    rw [hstep]
    simp only [etherscanGetGo, he]
    rw [if_neg (by decide)]
    rfl
  · intro e he
    rw [hstep]
    simp only [etherscanGetGo, he]
    rw [if_neg (by decide)]
    rfl
  · intro text ht
    rw [hstep]
    simp only [etherscanGetGo, ht]
    rw [if_pos trivial, if_neg (by decide)]
    rfl
  · intro text ht
    rw [hstep]
    simp only [etherscanGetGo, ht]
    rw [if_neg (by decide)]
    rfl
  · intro e he
    rw [hstep]
    simp only [etherscanGetGo, he]
    rw [if_neg (by decide)]
    rfl
  · intro status message resultStr text hj
    rw [hstep]
    simp only [etherscanGetGo, hj]
    rw [if_neg (by rintro ⟨-, hlt⟩; exact absurd hlt (by decide)),
      if_neg (by rintro ⟨-, hlt⟩; exact absurd hlt (by decide))]
  · intro respB code text hcode hres
    unfold etherscan_get
    rw [show max_attempts = 3 from rfl]
    simp only [etherscanGetGo, hres]
    rw [if_neg hcode]
  · intro respB code text hcode hb0 hres
    unfold etherscan_get
    rw [show max_attempts = 3 from rfl]
    rw [etherscanGetGo_retry_step respB 0 2 [] (by decide) hb0]
    simp only [etherscanGetGo, hres]
    rw [if_neg hcode]
    rfl
  · intro respB code text hcode hb0 hb1 hres
    unfold etherscan_get
    rw [show max_attempts = 3 from rfl]
    rw [etherscanGetGo_retry_step respB 0 2 [] (by decide) hb0]
    rw [etherscanGetGo_retry_step respB 1 1 _ (by decide) hb1]
    simp only [etherscanGetGo, hres]
    rw [if_neg hcode]
    rfl

/-- Counterexample to C3 as stated: when every attempt yields a parseable 200
response with a not-OK status (a retry trigger), `_get` makes its 3 attempts
and then RETURNS that JSON as a value rather than raising. -/
theorem etherscan_get_returns_on_last_notok :
    triggersRetry (Resp.jsonOk "0" "error" none "body") = true
    ∧ (etherscan_get (fun _ => Resp.jsonOk "0" "error" none "body")).outcome
      = GetOutcome.value "0" "error" none "body"
    ∧ (etherscan_get (fun _ => Resp.jsonOk "0" "error" none "body")).attempts = 3 := by
  refine ⟨by decide, by decide, by decide⟩

/-- Concrete instantiation of the C3 theorem: three not-OK responses give
delays of exactly 1s then 2s. -/
theorem etherscan_get_retry_behavior_witness :
    triggersRetry ((fun _ : Nat => Resp.jsonOk "0" "error" none "body") 0) = true
    ∧ (etherscan_get (fun _ : Nat => Resp.jsonOk "0" "error" none "body")).delays
      = [1, 2] :=
  ⟨by decide, (etherscan_get_retry_behavior (fun _ => Resp.jsonOk "0" "error" none "body")
    (by decide) (by decide) (by decide)).2.1⟩

end EthTxCrawler
